import Mathlib

/-!
# Verification of the typhon `Dataset` core (src/typhon/spareice/datasets.py)

This file is a shallow embedding of the parts of `typhon.spareice.datasets`
that the specification's claims are about: the path-template engine
(`generate_filename`, `parse_filename`, `_retrieve_time_coverage`,
`_standardise_datetime_args`, `_get_superior_time_resolution`), the search
filters (`_get_matching_files`, `is_excluded`), the ordering and bundling
logic (`_prepare_find_files_return`), the info cache persistence
(`save_info_cache`, `load_info_cache`), the window validation in `find`,
the no-file behaviour of `find_closest`, and the class-attribute semantics
of `set_placeholders`.

Python `datetime` objects are embedded as a record of `Nat` fields with
Python's lexicographic comparison; `timedelta` values are microsecond
counts.  Python exceptions are embedded as an explicit error type `PyErr`
and fallible code returns `Except PyErr _` / `Option _`.
-/

namespace Typhon

/-! ## Decimal digit strings

`generate_filename` fills the temporal placeholders with zero-padded
decimal strings (`"{:02d}".format(...)`, `str(year)`), and
`_to_datetime_args` converts the captured strings back with `int(...)`.
These helpers model Python's decimal formatting/parsing on `List Char`.
-/

/-- Structural helper for `natDigitsRev`; the fuel bounds the number of
divisions (`n` itself always suffices), keeping the definition reducible
by kernel evaluation. -/
def natDigitsRevFuel : Nat → Nat → List Nat
  | 0, n => [n]
  | fuel + 1, n => if n < 10 then [n] else (n % 10) :: natDigitsRevFuel fuel (n / 10)

/-- The decimal digits of `n`, least-significant first (each `< 10`). -/
def natDigitsRev (n : Nat) : List Nat := natDigitsRevFuel n n

theorem natDigitsRevFuel_congr :
    ∀ f1 n, n ≤ f1 → ∀ f2, n ≤ f2 →
      natDigitsRevFuel f1 n = natDigitsRevFuel f2 n := by
  intro f1
  induction f1 with
  | zero =>
    intro n hn f2 _
    have h0 : n = 0 := by omega
    subst h0
    cases f2 <;> simp [natDigitsRevFuel]
  | succ f ih =>
    intro n hn f2 h2
    cases f2 with
    | zero =>
      have h0 : n = 0 := by omega
      subst h0
      simp [natDigitsRevFuel]
    | succ g =>
      show (if n < 10 then [n] else (n % 10) :: natDigitsRevFuel f (n / 10))
        = (if n < 10 then [n] else (n % 10) :: natDigitsRevFuel g (n / 10))
      split_ifs with h
      · rfl
      · have hdiv : n / 10 < n := Nat.div_lt_self (by omega) (by omega)
        rw [ih (n / 10) (by omega) g (by omega)]

/-- The defining recursion of `natDigitsRev`. -/
theorem natDigitsRev_eq (n : Nat) :
    natDigitsRev n = if n < 10 then [n] else (n % 10) :: natDigitsRev (n / 10) := by
  unfold natDigitsRev
  cases n with
  | zero => simp [natDigitsRevFuel]
  | succ m =>
    show (if m + 1 < 10 then [m + 1]
        else ((m + 1) % 10) :: natDigitsRevFuel m ((m + 1) / 10)) = _
    split_ifs with h
    · rfl
    · have hdiv : (m + 1) / 10 < m + 1 := Nat.div_lt_self (by omega) (by omega)
      rw [natDigitsRevFuel_congr m ((m + 1) / 10) (by omega) ((m + 1) / 10) le_rfl]

/-- `str(n)` for a natural number: decimal digit characters. -/
def natToChars (n : Nat) : List Char :=
  (natDigitsRev n).reverse.map (fun d => Char.ofNat (48 + d))

/-- `"{:0wd}".format(n)`: zero-pad `n` on the left to width `w`
(Python does not truncate when the number is wider). -/
def padZero (w : Nat) (n : Nat) : List Char :=
  List.replicate (w - (natToChars n).length) '0' ++ natToChars n

/-- Is `c` one of the characters `'0'`-`'9'`? -/
def isDigitChar (c : Char) : Bool :=
  48 ≤ c.toNat && c.toNat ≤ 57

/-- `s.startswith(pre)` (on the character lists, so that it computes by
kernel reduction). -/
def strStartsWith (s pre : String) : Bool :=
  pre.data.isPrefixOf s.data

/-- `s[n:]` (on the character lists). -/
def strDrop (s : String) (n : Nat) : String :=
  String.mk (s.data.drop n)

/-- `int(s)` on a string of decimal digits (most-significant first). -/
def digitsVal (l : List Char) : Nat :=
  l.foldl (fun a c => 10 * a + (c.toNat - 48)) 0

theorem natDigitsRev_all_lt (n : Nat) : ∀ d ∈ natDigitsRev n, d < 10 := by
  induction n using Nat.strong_induction_on with
  | _ n ih =>
    rw [natDigitsRev_eq]
    split
    · intro d hd
      simp only [List.mem_singleton] at hd
      omega
    · intro d hd
      rcases List.mem_cons.mp hd with h | h
      · subst h; exact Nat.mod_lt _ (by omega)
      · exact ih (n / 10) (Nat.div_lt_self (by omega) (by omega)) d h

theorem natDigitsRev_ne_nil (n : Nat) : natDigitsRev n ≠ [] := by
  rw [natDigitsRev_eq]
  split <;> simp

/-- Value of a digit list, least-significant first. -/
def digitsRevVal (l : List Nat) : Nat :=
  l.foldr (fun d a => d + 10 * a) 0

theorem natDigitsRev_val (n : Nat) : digitsRevVal (natDigitsRev n) = n := by
  induction n using Nat.strong_induction_on with
  | _ n ih =>
    rw [natDigitsRev_eq]
    split
    · simp [digitsRevVal]
    · have := ih (n / 10) (Nat.div_lt_self (by omega) (by omega))
      simp only [digitsRevVal, List.foldr] at this ⊢
      rw [this]
      omega

theorem toNat_char_of_digit (d : Nat) (hd : d < 10) :
    (Char.ofNat (48 + d)).toNat - 48 = d := by
  interval_cases d <;> decide

theorem isDigitChar_of_digit (d : Nat) (hd : d < 10) :
    isDigitChar (Char.ofNat (48 + d)) = true := by
  interval_cases d <;> decide

theorem digitsVal_append (a b : List Char) :
    digitsVal (a ++ b) = digitsVal a * 10 ^ b.length + digitsVal b := by
  have key : ∀ (l : List Char) (init : Nat),
      l.foldl (fun a c => 10 * a + (c.toNat - 48)) init
        = init * 10 ^ l.length + digitsVal l := by
    intro l
    induction l with
    | nil => intro init; simp [digitsVal]
    | cons c cs ih =>
      intro init
      simp only [List.foldl, digitsVal, List.length_cons]
      rw [ih (10 * init + (c.toNat - 48)), ih (10 * 0 + (c.toNat - 48))]
      ring
  simp only [digitsVal, List.foldl_append]
  rw [key b (List.foldl (fun a c => 10 * a + (c.toNat - 48)) 0 a)]
  rfl

theorem digitsVal_natToChars (n : Nat) : digitsVal (natToChars n) = n := by
  have key : ∀ l : List Nat, (∀ d ∈ l, d < 10) →
      digitsVal (l.reverse.map (fun d => Char.ofNat (48 + d))) = digitsRevVal l := by
    intro l
    induction l with
    | nil => intro _; simp [digitsVal, digitsRevVal]
    | cons d ds ih =>
      intro h
      have hd : d < 10 := h d (List.mem_cons_self _ _)
      simp only [List.reverse_cons, List.map_append, List.map_cons, List.map_nil]
      rw [digitsVal_append]
      have h1 : digitsVal [Char.ofNat (48 + d)] = d := by
        simp [digitsVal, toNat_char_of_digit d hd]
      rw [h1, ih (fun x hx => h x (List.mem_cons_of_mem _ hx))]
      simp [digitsRevVal]
      ring
  unfold natToChars
  rw [key _ (natDigitsRev_all_lt n), natDigitsRev_val]

theorem natDigitsRev_length_le (n w : Nat) (hw : 0 < w) (h : n < 10 ^ w) :
    (natDigitsRev n).length ≤ w := by
  induction n using Nat.strong_induction_on generalizing w with
  | _ n ih =>
    rw [natDigitsRev_eq]
    split
    · simpa using hw
    · rename_i hn
      simp only [List.length_cons]
      have hw1 : 0 < w - 1 := by
        by_contra hcon
        have hw' : w = 1 := by omega
        subst hw'
        simp at h
        omega
      have hlt : n / 10 < 10 ^ (w - 1) := by
        have : n < 10 ^ (w - 1) * 10 := by
          have h10 : (10 : Nat) ^ w = 10 ^ (w - 1) * 10 := by
            conv_lhs => rw [show w = (w - 1) + 1 by omega]
            rw [pow_succ]
          omega
        omega
      have := ih (n / 10) (Nat.div_lt_self (by omega) (by omega)) (w - 1) hw1 hlt
      omega

theorem natDigitsRev_length_ge (n w : Nat) (h : 10 ^ w ≤ n) :
    w + 1 ≤ (natDigitsRev n).length := by
  induction n using Nat.strong_induction_on generalizing w with
  | _ n ih =>
    rw [natDigitsRev_eq]
    split
    · rename_i hn
      have : w = 0 := by
        by_contra hcon
        have : 10 ≤ 10 ^ w := by
          calc 10 = 10 ^ 1 := by norm_num
          _ ≤ 10 ^ w := Nat.pow_le_pow_right (by omega) (by omega)
        omega
      simp [this]
    · rename_i hn
      simp only [List.length_cons]
      rcases Nat.eq_zero_or_pos w with hw | hw
      · omega
      · have hge : 10 ^ (w - 1) ≤ n / 10 := by
          have h10 : (10 : Nat) ^ w = 10 ^ (w - 1) * 10 := by
            conv_lhs => rw [show w = (w - 1) + 1 by omega]
            rw [pow_succ]
          have : 10 ^ (w - 1) * 10 ≤ n := by omega
          omega
        have := ih (n / 10) (Nat.div_lt_self (by omega) (by omega)) (w - 1) hge
        omega

theorem natToChars_length_of_range (n w : Nat) (hw : 0 < w)
    (h1 : 10 ^ (w - 1) ≤ n) (h2 : n < 10 ^ w) :
    (natToChars n).length = w := by
  unfold natToChars
  simp only [List.length_map, List.length_reverse]
  have hle := natDigitsRev_length_le n w hw h2
  rcases Nat.eq_zero_or_pos (w - 1) with h0 | hpos
  · have hw1 : w = 1 := by omega
    subst hw1
    have := natDigitsRev_ne_nil n
    have : 0 < (natDigitsRev n).length := List.length_pos.mpr this
    omega
  · have := natDigitsRev_length_ge n (w - 1) h1
    omega

theorem padZero_length (w n : Nat) (h : (natToChars n).length ≤ w) :
    (padZero w n).length = w := by
  unfold padZero
  simp only [List.length_append, List.length_replicate]
  omega

theorem natToChars_all_digits (n : Nat) : ∀ c ∈ natToChars n, isDigitChar c = true := by
  intro c hc
  unfold natToChars at hc
  rcases List.mem_map.mp hc with ⟨d, hd, hcd⟩
  subst hcd
  exact isDigitChar_of_digit d (natDigitsRev_all_lt n d (List.mem_reverse.mp hd))

theorem padZero_all_digits (w n : Nat) : ∀ c ∈ padZero w n, isDigitChar c = true := by
  intro c hc
  unfold padZero at hc
  rcases List.mem_append.mp hc with h | h
  · have := List.eq_of_mem_replicate h
    subst this
    decide
  · exact natToChars_all_digits n c h

theorem digitsVal_padZero (w n : Nat) : digitsVal (padZero w n) = n := by
  unfold padZero
  rw [digitsVal_append]
  have hz : ∀ k, digitsVal (List.replicate k '0') = 0 := by
    intro k
    induction k with
    | zero => rfl
    | succ m ih =>
      simp only [List.replicate_succ, digitsVal, List.foldl] at ih ⊢
      simpa using ih
  rw [hz, digitsVal_natToChars]
  simp

theorem natToChars_le_padZero (w n : Nat) (h : n < 10 ^ w) (hw : 0 < w) :
    (natToChars n).length ≤ w :=
  by unfold natToChars; simpa using natDigitsRev_length_le n w hw h

/-! ## Python `datetime` and `timedelta`

`datetime.datetime` values are embedded as a record of their seven fields.
Python compares datetimes lexicographically on these fields, adds
`timedelta`s by proleptic-Gregorian calendar arithmetic, and restricts the
year to `1..9999` (`datetime.min`..`datetime.max`); arithmetic leaving that
range raises `OverflowError`.  `timedelta` values are whole microsecond
counts here (all timedeltas used by `Dataset._temporal_resolution` are).
-/

/-- The Python exceptions that the embedded code can raise. -/
inductive PyErr where
  | noFilesError
  | valueError
  | typeError
  | overflowError
  | keyError
  | unknownPlaceholderError
  | unfilledPlaceholderError
deriving Repr, DecidableEq

deriving instance DecidableEq for Except

structure Datetime where
  year : Nat
  month : Nat
  day : Nat
  hour : Nat
  minute : Nat
  second : Nat
  microsecond : Nat
deriving Repr, DecidableEq

/-- Python's lexicographic comparison of `datetime` objects. -/
def Datetime.lt (a b : Datetime) : Bool :=
  if a.year ≠ b.year then a.year < b.year
  else if a.month ≠ b.month then a.month < b.month
  else if a.day ≠ b.day then a.day < b.day
  else if a.hour ≠ b.hour then a.hour < b.hour
  else if a.minute ≠ b.minute then a.minute < b.minute
  else if a.second ≠ b.second then a.second < b.second
  else a.microsecond < b.microsecond

def Datetime.le (a b : Datetime) : Bool :=
  a = b || Datetime.lt a b

/-- `calendar.isleap` / the proleptic Gregorian leap-year rule that
`datetime` uses. -/
def isLeapYear (y : Nat) : Bool :=
  y % 4 = 0 && (y % 100 ≠ 0 || y % 400 = 0)

/-- Days in a month of the proleptic Gregorian calendar. -/
def daysInMonth (y m : Nat) : Nat :=
  if m = 2 then (if isLeapYear y then 29 else 28)
  else if m = 4 ∨ m = 6 ∨ m = 9 ∨ m = 11 then 30
  else 31

/-- The range and field validity that `datetime.__new__` enforces
(`MINYEAR = 1`, `MAXYEAR = 9999`). -/
def Datetime.valid (d : Datetime) : Bool :=
  1 ≤ d.year && d.year ≤ 9999 &&
  1 ≤ d.month && d.month ≤ 12 &&
  1 ≤ d.day && d.day ≤ daysInMonth d.year d.month &&
  d.hour ≤ 23 && d.minute ≤ 59 && d.second ≤ 59 && d.microsecond ≤ 999999

/-- Rata-die style day count of a Gregorian date, measured from
0000-03-01 (the standard "civil-from-days" construction, shifted so all
values for years `1..9999` are positive). -/
def daysFromCivil (y m d : Nat) : Nat :=
  let y' := if m ≤ 2 then y - 1 else y
  let m' := if m ≤ 2 then m + 9 else m - 3
  let era := y' / 400
  let yoe := y' % 400
  let doy := (153 * m' + 2) / 5 + (d - 1)
  let doe := yoe * 365 + yoe / 4 - yoe / 100 + doy
  era * 146097 + doe

/-- Inverse of `daysFromCivil` ("civil-from-days"). -/
def civilFromDays (z : Nat) : Nat × Nat × Nat :=
  let era := z / 146097
  let doe := z % 146097
  let yoe := (doe - doe / 1460 + doe / 36524 - doe / 146096) / 365
  let y' := yoe + era * 400
  let doy := doe - (365 * yoe + yoe / 4 - yoe / 100)
  let mp := (5 * doy + 2) / 153
  let d := doy - (153 * mp + 2) / 5 + 1
  let m := if mp < 10 then mp + 3 else mp - 9
  (if m ≤ 2 then y' + 1 else y', m, d)

def microsPerDay : Nat := 86400000000

/-- Total microseconds of a datetime counted from 0000-03-01T00:00:00;
Python datetime order and `timedelta` arithmetic are isomorphic to this
linear count. -/
def Datetime.toLinear (t : Datetime) : Nat :=
  daysFromCivil t.year t.month t.day * microsPerDay
    + t.hour * 3600000000 + t.minute * 60000000 + t.second * 1000000
    + t.microsecond

def Datetime.ofLinear (n : Nat) : Datetime :=
  let z := n / microsPerDay
  let rem := n % microsPerDay
  let ymd := civilFromDays z
  { year := ymd.1, month := ymd.2.1, day := ymd.2.2
    hour := rem / 3600000000
    minute := rem % 3600000000 / 60000000
    second := rem % 60000000 / 1000000
    microsecond := rem % 1000000 }

/-- `datetime + timedelta(microseconds=delta)`: linear addition followed by
the `MAXYEAR` range check (violations raise `OverflowError`). -/
def Datetime.addMicros (t : Datetime) (delta : Nat) : Except PyErr Datetime :=
  let r := Datetime.ofLinear (t.toLinear + delta)
  if r.year ≤ 9999 then .ok r else .error .overflowError

/-! ## The path template

A `Dataset` path is a string mixing literal characters with `{name}`
placeholders.  The embedding works on the structurally parsed form: a list
of literal runs and placeholder names (the `{name}` syntax itself carries
no further information).
-/

inductive Token where
  | lit (s : List Char)
  | ph (name : String)
deriving Repr, DecidableEq

/-- `Dataset._special_chars`. -/
def specialChars : List Char := ['{', '*', '[', '\\', '<', '(', '?', '!', '|']

/-- The capture width of the regex that `Dataset._time_placeholder`
assigns to each temporal placeholder (`\d{4}`, `\d{2}`, …); `none` for
names that are not temporal placeholders. -/
def timePlaceholderWidth (name : String) : Option Nat :=
  if name = "year" ∨ name = "end_year" then some 4
  else if name = "year2" ∨ name = "end_year2" then some 2
  else if name = "month" ∨ name = "end_month" then some 2
  else if name = "day" ∨ name = "end_day" then some 2
  else if name = "doy" ∨ name = "end_doy" then some 3
  else if name = "hour" ∨ name = "end_hour" then some 2
  else if name = "minute" ∨ name = "end_minute" then some 2
  else if name = "second" ∨ name = "end_second" then some 2
  else if name = "millisecond" ∨ name = "end_millisecond" then some 3
  else none

/-- The names of the placeholders occurring in a template, in order. -/
def phNames (tpl : List Token) : List String :=
  tpl.filterMap (fun t => match t with | .lit _ => none | .ph n => some n)

/-- The value `Dataset.generate_filename` formats for a temporal
placeholder: non-`end_` fields read the start time, `end_` fields the end
time; `year` is `str(year)` (unpadded), `year2` the last two characters of
`str(year)`, `doy` the 1-based ordinal day `"{:03d}"`, `millisecond`
`"{:03d}".format(microsecond // 1000)`, the rest `"{:02d}"`. -/
def renderField (name : String) (t0 t1 : Datetime) : Option (List Char) :=
  let fieldOf : Datetime → String → Option (List Char) := fun t n =>
    if n = "year" then some (natToChars t.year)
    else if n = "year2" then
      some ((natToChars t.year).reverse.take 2).reverse
    else if n = "month" then some (padZero 2 t.month)
    else if n = "day" then some (padZero 2 t.day)
    else if n = "doy" then
      some (padZero 3 (daysFromCivil t.year t.month t.day
        - daysFromCivil t.year 1 1 + 1))
    else if n = "hour" then some (padZero 2 t.hour)
    else if n = "minute" then some (padZero 2 t.minute)
    else if n = "second" then some (padZero 2 t.second)
    else if n = "millisecond" then some (padZero 3 (t.microsecond / 1000))
    else none
  if strStartsWith name "end_" then fieldOf t1 (strDrop name 4)
  else fieldOf t0 name

/-- One token of `Dataset.generate_filename`'s `template.format(...)` call:
temporal placeholders come from the keyword table built from
`start_time`/`end_time`, other placeholders from the `fill` dictionary;
a name in neither raises `KeyError` (surfaced by the method as
`UnknownPlaceholderError`).  A user filling for a temporal keyword would
be a duplicate keyword argument (`TypeError`). -/
def tokenStr (t0 t1 : Datetime) (fill : List (String × List Char)) :
    Token → Except PyErr (List Char)
  | .lit s => .ok s
  | .ph name =>
    match renderField name t0 t1 with
    | some v =>
      if (fill.map Prod.fst).contains name then .error .typeError else .ok v
    | none =>
      match fill.lookup name with
      | some v => .ok v
      | none => .error .unknownPlaceholderError

/-- `Dataset.generate_filename(times=(t0, t1), fill=fill)` on the parsed
template: fill every placeholder, then fail with
`UnfilledPlaceholderError` if any special character remains in the
result. -/
def generate_filename (tpl : List Token) (t0 t1 : Datetime)
    (fill : List (String × List Char)) : Except PyErr (List Char) := do
  let parts ← tpl.mapM (tokenStr t0 t1 fill)
  let s := parts.flatten
  if s.any (fun c => specialChars.contains c) then
    .error .unfilledPlaceholderError
  else
    .ok s

/-- The raw concatenation a successful render produces (no error checks);
`generate_filename_eq_renderRaw` connects the two. -/
def renderRaw (tpl : List Token) (t0 t1 : Datetime) : List Char :=
  (tpl.map (fun t => match t with
    | .lit s => s
    | .ph name => (renderField name t0 t1).getD [])).flatten

/-- The characters on which the compiled path regex is **not** literal
even though `generate_filename` lets them through:
`_fill_placeholders_with_regexes` (line 2259) escapes only `.` and
translates `*`, so any other `re` metacharacter in a literal run stays
active in the compiled pattern.  Of the metacharacters
`. ^ $ * + ? { } [ ] \ | ( )`, the nine `_special_chars` cannot survive
a successful render and `.` is escaped; the remainder — `^`, `$`, `+`,
`}` (which in fact already breaks `str.format` during compilation),
`]` and `)` (which breaks `re.compile`) — are collected here. -/
def regexActiveChars : List Char := ['^', '$', '+', '\x7d', ']', ')']

/-- Templates whose literal runs contain no character from
`regexActiveChars`: on these (and only these) the compiled regex matches
every literal character verbatim, so the sequential matcher below agrees
with `re.match`. -/
def litRegexSafe (tpl : List Token) : Bool :=
  tpl.all (fun t => match t with
    | .lit l => l.all (fun c => !(regexActiveChars.contains c))
    | .ph _ => true)

/-- Consume a literal run character by character.  The source does *not*
escape literal runs (only `.`), so this verbatim consumption models the
compiled regex faithfully only for `litRegexSafe` templates, where every
literal character is either the escaped `.` or an ordinary character
that `re` matches verbatim; a literal containing an active metacharacter
such as `+` behaves differently in the program (see `regexActiveChars`).
The round-trip theorem for C1 restricts its templates accordingly. -/
def dropExact : List Char → List Char → Option (List Char)
  | [], s => some s
  | _ :: _, [] => none
  | c :: l, d :: s => if c = d then dropExact l s else none

/-- Consume a fixed-width all-digit capture (the regex `\d{w}`). -/
def takeFixed (w : Nat) (s : List Char) : Option (List Char × List Char) :=
  let pre := s.take w
  if pre.length = w && pre.all isDigitChar then some (pre, s.drop w)
  else none

/-- Sequential matcher for the compiled path regex, specialised to
templates whose placeholders are all temporal and whose literal runs are
`litRegexSafe`.  For such templates the compiled pattern is a
concatenation of verbatim-matching literal runs (`.` escaped, all other
characters ordinary) and fixed-width `(?P<name>\d{w})` groups, so
`re.match` admits exactly one segmentation and is equivalent to this
left-to-right scan.  Outside that scope — a literal `+`, `^` or `$` —
the compiled pattern contains live regex syntax that this scan does not
model.  Returns the named captures (`groupdict`) and the unconsumed
suffix. -/
def parseCore : List Token → List Char →
    Option (List (String × List Char) × List Char)
  | [], s => some ([], s)
  | .lit l :: rest, s => do
    let s' ← dropExact l s
    parseCore rest s'
  | .ph name :: rest, s => do
    let w ← timePlaceholderWidth name
    let (v, s') ← takeFixed w s
    let (caps, s'') ← parseCore rest s'
    some ((name, v) :: caps, s'')

/-- `Dataset.parse_filename(filename)`: match the anchored regex against
the whole name; no match raises `ValueError`, a match returns
`groupdict()`. -/
def parse_filename (tpl : List Token) (s : List Char) :
    Except PyErr (List (String × List Char)) :=
  match parseCore tpl s with
  | some (caps, []) => .ok caps
  | _ => .error .valueError

/-! ## From captures to a time coverage

`Dataset._to_datetime_args` turns the parsed placeholder strings into two
keyword-argument dictionaries for `datetime(...)`;
`Dataset._standardise_datetime_args` rewrites `year2`, `millisecond` and
`doy`; `Dataset._retrieve_time_coverage` builds the `(start, end)` pair.
The argument dictionaries are embedded as a record of optional fields,
one per key that can occur.
-/

structure DtArgs where
  year : Option Nat := none
  year2 : Option Nat := none
  month : Option Nat := none
  day : Option Nat := none
  doy : Option Nat := none
  hour : Option Nat := none
  minute : Option Nat := none
  second : Option Nat := none
  millisecond : Option Nat := none
  microsecond : Option Nat := none
deriving Repr, DecidableEq

/-- Python dict truthiness: `if args:`. -/
def DtArgs.isEmpty (a : DtArgs) : Bool :=
  a.year = none && a.year2 = none && a.month = none && a.day = none &&
  a.doy = none && a.hour = none && a.minute = none && a.second = none &&
  a.millisecond = none && a.microsecond = none

/-- `{**a, **b}`: keys of `b` override keys of `a`. -/
def DtArgs.merge (a b : DtArgs) : DtArgs where
  year := b.year <|> a.year
  year2 := b.year2 <|> a.year2
  month := b.month <|> a.month
  day := b.day <|> a.day
  doy := b.doy <|> a.doy
  hour := b.hour <|> a.hour
  minute := b.minute <|> a.minute
  second := b.second <|> a.second
  millisecond := b.millisecond <|> a.millisecond
  microsecond := b.microsecond <|> a.microsecond

/-- Store `int(value)` under a non-`end_` temporal key (the start-side
dictionary comprehension of `_to_datetime_args`); other names are
filtered out by the `p in self._time_placeholder` test. -/
def DtArgs.setStart (a : DtArgs) (name : String) (v : Nat) : DtArgs :=
  if name = "year" then { a with year := some v }
  else if name = "year2" then { a with year2 := some v }
  else if name = "month" then { a with month := some v }
  else if name = "day" then { a with day := some v }
  else if name = "doy" then { a with doy := some v }
  else if name = "hour" then { a with hour := some v }
  else if name = "minute" then { a with minute := some v }
  else if name = "second" then { a with second := some v }
  else if name = "millisecond" then { a with millisecond := some v }
  else a

/-- The start-side dictionary of `_to_datetime_args`. -/
def startArgsOf (caps : List (String × List Char)) : DtArgs :=
  caps.foldl
    (fun a kv =>
      if strStartsWith kv.1 "end_" then a
      else DtArgs.setStart a kv.1 (digitsVal kv.2))
    {}

/-- The end-side dictionary of `_to_datetime_args`: keys `end_x` with
`end_x` a temporal placeholder, stored under `x`. -/
def endArgsOf (caps : List (String × List Char)) : DtArgs :=
  caps.foldl
    (fun a kv =>
      if strStartsWith kv.1 "end_" && (timePlaceholderWidth kv.1).isSome then
        DtArgs.setStart a (strDrop kv.1 4) (digitsVal kv.2)
      else a)
    {}

/-- `Dataset._standardise_datetime_args`: pop `year2` (threshold 65 →
19xx/20xx), pop `millisecond` (→ `microsecond`), pop `doy`
(→ `month`/`day` via `datetime(args["year"], 1, 1) + timedelta(doy - 1)`;
a missing `year` raises `KeyError`, an out-of-range year `ValueError`,
and leaving the calendar `OverflowError`). -/
def _standardise_datetime_args (a : DtArgs) : Except PyErr DtArgs := do
  let a := match a.year2 with
    | none => a
    | some v =>
      { a with year2 := none
               year := some (if v < 65 then 2000 + v else 1900 + v) }
  let a := match a.millisecond with
    | none => a
    | some ms => { a with millisecond := none, microsecond := some (ms * 1000) }
  match a.doy with
  | none => pure a
  | some doy =>
    match a.year with
    | none => .error .keyError
    | some y =>
      if 1 ≤ y ∧ y ≤ 9999 then
        let z := daysFromCivil y 1 1 + doy - 1
        let ymd := civilFromDays z
        if ymd.1 ≤ 9999 then
          pure { a with doy := none, month := some ymd.2.1, day := some ymd.2.2 }
        else .error .overflowError
      else .error .valueError

/-- `Dataset._to_datetime_args`. -/
def _to_datetime_args (caps : List (String × List Char)) :
    Except PyErr (DtArgs × DtArgs) := do
  let sa ← _standardise_datetime_args (startArgsOf caps)
  let ea ← _standardise_datetime_args (endArgsOf caps)
  pure (sa, ea)

/-- `datetime(**args)`: `year`, `month` and `day` are required positional
arguments (missing ones raise `TypeError`), the remaining fields default
to zero, every field is range-checked (`ValueError`); keys that are not
`datetime` keywords (`year2`, `doy`, `millisecond` survive only if
standardisation was skipped) raise `TypeError`. -/
def mkDatetime (a : DtArgs) : Except PyErr Datetime :=
  if a.year2.isSome ∨ a.doy.isSome ∨ a.millisecond.isSome then
    .error .typeError
  else
    match a.year, a.month, a.day with
    | some y, some m, some d =>
      let t : Datetime :=
        { year := y, month := m, day := d
          hour := a.hour.getD 0, minute := a.minute.getD 0
          second := a.second.getD 0, microsecond := a.microsecond.getD 0 }
      if t.valid then .ok t else .error .valueError
    | _, _, _ => .error .typeError

/-- `Dataset._temporal_resolution` with the timedeltas as microsecond
counts, in the source's (coarsest-first) order. -/
def temporalResolution : List (String × Nat) :=
  [("year", 31622400000000), ("month", 2678400000000), ("day", 86400000000),
   ("hour", 3600000000), ("minute", 60000000), ("second", 1000000),
   ("millisecond", 1000)]

/-- `Dataset._get_superior_time_resolution`: intersect the given names
with `_temporal_resolution`, take the `max` of their timedeltas, and
return the timedelta one position earlier in the table (or `None` when
the names are disjoint from the table or the maximum is `year`). -/
def _get_superior_time_resolution (placeholders : List String) : Option Nat :=
  let known := temporalResolution.filter (fun p => placeholders.contains p.1)
  if known.isEmpty then none
  else
    let coarsest := (known.map Prod.snd).foldl max 0
    let values := temporalResolution.map Prod.snd
    let idx := values.indexOf coarsest
    if idx = 0 then none
    else values[idx - 1]?

/-- The `end_time_placeholders` set computed in the `path` setter: every
`end_*` temporal placeholder of the template, with the `end_` prefix
stripped; `_end_time_superior` is `_get_superior_time_resolution` of it. -/
def endTimeSuperior (tpl : List Token) : Option Nat :=
  _get_superior_time_resolution
    ((phNames tpl).filterMap (fun n =>
      if strStartsWith n "end" ∧ (timePlaceholderWidth n).isSome then
        some (strDrop n 4)
      else none))

/-- `Dataset._retrieve_time_coverage(filled_placeholder)`: `None` for an
empty capture dict; otherwise build the start date from the non-`end_`
captures and the end date from the start overlaid with the `end_`
captures; an end before the start is advanced by `_end_time_superior`
(passed here as `superior`; adding `None` raises `TypeError`, as does
comparing against a missing start). -/
def _retrieve_time_coverage (superior : Option Nat)
    (caps : List (String × List Char)) :
    Except PyErr (Option (Option Datetime × Option Datetime)) := do
  if caps.isEmpty then
    pure none
  else
    let (sa, ea) ← _to_datetime_args caps
    let startD ← if sa.isEmpty then pure (Option.none (α := Datetime))
      else some <$> mkDatetime sa
    if ea.isEmpty then
      pure (some (startD, none))
    else
      let endD ← mkDatetime (DtArgs.merge sa ea)
      match startD with
      | none => .error .typeError
      | some s =>
        if endD.lt s then
          match superior with
          | none => .error .typeError
          | some delta => do
            let e' ← endD.addMicros delta
            pure (some (some s, some e'))
        else
          pure (some (some s, some endD))

/-! ## Files, the exclusion set and the matching filter

`FileInfo` (from `typhon.spareice.handlers`) pairs a path with its time
coverage and the user-placeholder captures.  The `IntervalTree` used for
`Dataset.exclude` lives in `typhon.trees`, which is not part of this
repository's sources; its `contains`/`overlaps` operations are modelled
from the spec (closed intervals, both endpoints inclusive, a period is
excluded when it lies inside some stored interval).
-/

structure FileInfo where
  path : String
  times : Datetime × Datetime
  attr : List (String × String) := []
deriving Repr, DecidableEq

/-- Modelled from the spec: `IntervalTree.interval_contains` from
`typhon.trees` (not under `src/`): a closed interval contains a point iff
`a ≤ p ≤ b`. -/
def interval_contains (iv : Datetime × Datetime) (p : Datetime) : Bool :=
  iv.1.le p && p.le iv.2

/-- Modelled from the spec: `IntervalTree.interval_overlaps` from
`typhon.trees` (not under `src/`): two closed intervals overlap iff their
intersection is non-empty (both endpoints inclusive). -/
def interval_overlaps (a b : Datetime × Datetime) : Bool :=
  a.1.le b.2 && b.1.le a.2

/-- Modelled from the spec: `period in tree` on a `typhon.trees`
`IntervalTree` (not under `src/`): the queried period lies inside some
stored interval. -/
def treeContains (tree : List (Datetime × Datetime))
    (period : Datetime × Datetime) : Bool :=
  tree.any (fun iv => iv.1.le period.1 && period.2.le iv.2)

/-- `Dataset.is_excluded(period)`: `False` when no exclusion set is
configured, else membership in the interval tree. -/
def is_excluded (exclude : Option (List (Datetime × Datetime)))
    (period : Datetime × Datetime) : Bool :=
  match exclude with
  | none => false
  | some tree => treeContains tree period

/-- The filtering step of `Dataset._get_matching_files`: of the candidate
files of one directory (the `glob` listing restricted to the names the
path regex matches, with the coverage `get_info` derives — both abstracted
into the `candidates` argument), yield those whose times overlap
`(start, end)` and are not excluded. -/
def _get_matching_files (exclude : Option (List (Datetime × Datetime)))
    (start stop : Datetime) (candidates : List FileInfo) : List FileInfo :=
  candidates.filter (fun f =>
    interval_overlaps f.times (start, stop) && !is_excluded exclude f.times)

/-! ## Ordering and bundling (`Dataset._prepare_find_files_return`)

`sorted(file_iterator, key=lambda x: x.times[0])` is a stable sort by
start time; it is embedded as a stable insertion sort (extensionally the
same function as any stable sort).  Integer bundles are consecutive
slices `files[i:i+n]`; string bundles group by
`pd.Grouper(freq=...)`, i.e. by a floor-function of the start time, with
group keys ascending and the original order kept inside each group.
-/

/-- Stable insertion into a list sorted by start time: the new element
goes after existing elements with an equal key. -/
def insertByStart (f : FileInfo) : List FileInfo → List FileInfo
  | [] => [f]
  | g :: rest =>
    if Datetime.lt f.times.1 g.times.1 then f :: g :: rest
    else g :: insertByStart f rest

/-- `sorted(files, key=lambda x: x.times[0])` (stable). -/
def sortByStart (files : List FileInfo) : List FileInfo :=
  files.foldr insertByStart []

/-- `files[i:i+n]` slicing loop of the integer-bundle branch. -/
def chunkList (n : Nat) (l : List FileInfo) : List (List FileInfo) :=
  if h : n = 0 ∨ l = [] then []
  else l.take n :: chunkList n (l.drop n)
  termination_by l.length
  decreasing_by
    push_neg at h
    have h1 : 0 < n := Nat.pos_of_ne_zero h.1
    have h2 : 0 < l.length := List.length_pos.mpr h.2
    have h3 : (l.drop n).length = l.length - n := List.length_drop n l
    omega

/-- Ascending insertion of a key into a sorted `List Nat` without
duplicates. -/
def insertKey (k : Nat) : List Nat → List Nat
  | [] => [k]
  | j :: rest =>
    if k = j then j :: rest
    else if k < j then k :: j :: rest
    else j :: insertKey k rest

/-- The distinct group keys, ascending (pandas sorts group keys). -/
def sortedKeys (key : Datetime → Nat) (files : List FileInfo) : List Nat :=
  (files.map (fun f => key f.times.1)).foldr insertKey []

/-- `pd.Series(files, starts).groupby(pd.Grouper(freq)).…`: non-empty
groups in ascending key order, each keeping the input order. -/
def freqGroup (key : Datetime → Nat) (files : List FileInfo) :
    List (List FileInfo) :=
  (sortedKeys key files).map (fun k =>
    files.filter (fun f => key f.times.1 = k))

/-- The `bundle` argument of `find`: absent, an integer, or a pandas
frequency string (embedded as its floor-function on start times). -/
inductive BundleArg where
  | noBundle
  | int (n : Nat)
  | freq (key : Datetime → Nat)

def BundleArg.isInt : BundleArg → Bool
  | .int _ => true
  | _ => false

/-- The value stream `find` yields: single `FileInfo` objects, or lists
of them when `bundle` is set. -/
inductive FindOutput where
  | files (l : List FileInfo)
  | bundles (l : List (List FileInfo))
deriving DecidableEq

/-- `Dataset._prepare_find_files_return(file_iterator, sort, bundle_size)`:
sort when `sort` is true **or** the bundle size is an integer; slice into
`n`-chunks for an integer bundle (`range(0, K, 0)` raises `ValueError`);
group by the frequency key for a string bundle. -/
def _prepare_find_files_return (files : List FileInfo) (sort : Bool)
    (bundle : BundleArg) : Except PyErr FindOutput :=
  let it := if sort || bundle.isInt then sortByStart files else files
  match bundle with
  | .noBundle => .ok (.files it)
  | .int n => if n = 0 then .error .valueError else .ok (.bundles (chunkList n it))
  | .freq key => .ok (.bundles (freqGroup key it))

/-! ## The empty-result behaviour of `find` and `find_closest`

`find` is a generator; after the directory walk produced its stream of
files (abstracted here into the `discovered` list, in discovery order),
lines 1093–1112 either yield them or — when `no_files_error` is true and
the stream is empty — raise `NoFilesError`.  `find_closest` consumes
`find(start, end, sort=False)` (so `no_files_error` keeps its default
`True`), then picks the covering file, else the file whose nearest
endpoint is closest (`np.argmin` takes the first minimum).
-/

def findStream (discovered : List FileInfo) (noFilesError : Bool) :
    Except PyErr (List FileInfo) :=
  if discovered.isEmpty && noFilesError then .error .noFilesError
  else .ok discovered

/-- Distance used by `find_closest`:
`np.min(np.abs(times - timestamp), axis=1)`. -/
def closestDist (ts : Datetime) (f : FileInfo) : Nat :=
  min ((f.times.1.toLinear : Int) - ts.toLinear).natAbs
      ((f.times.2.toLinear : Int) - ts.toLinear).natAbs

/-- First index of the minimum (`np.argmin`), returned as the element. -/
def argminBy (dist : FileInfo → Nat) : List FileInfo → Option FileInfo
  | [] => none
  | f :: rest =>
    match argminBy dist rest with
    | none => some f
    | some g => if dist f ≤ dist g then some f else some g

/-- The search phase of `Dataset.find_closest` after the directly rendered
filename was not found on disk: list the files `find` returns for the
widened period, return `None` if there are none (line 930–931), else the
file covering `timestamp`, else the closest one. -/
def findClosestSearch (ts : Datetime) (discovered : List FileInfo) :
    Except PyErr (Option FileInfo) := do
  let files ← findStream discovered true
  if files.isEmpty then
    pure none
  else
    match files.find? (fun f => interval_contains f.times ts) with
    | some f => pure (some f)
    | none => pure (argminBy (closestDist ts) files)

/-! ## The search-window validation of `find`

Lines 1009–1018 of `find` operate on the two timestamps only through
`end -= timedelta(microseconds=1)` and `end < start`.  Python datetimes
are order-isomorphic to their microsecond count from `datetime.min`
(0001-01-01T00:00), so the check is embedded on that count:
`datetime.min - timedelta(microseconds=1)` raises `OverflowError`, and
otherwise a `ValueError` is raised exactly when the decremented end is
before the start. -/
def findWindowCheck (start stop : Nat) : Except PyErr Unit :=
  if stop = 0 then .error .overflowError
  else if stop - 1 < start then .error .valueError
  else .ok ()

/-! ## The info cache and its persistence

`FileInfo.to_json_dict`/`from_json_dict` live in
`typhon.spareice.handlers`, which is not part of this repository's
sources; the serialized record is modelled from the spec
(`{path, times: [iso8601|null, iso8601|null], attrs}`, with the ISO
strings kept as their datetime values).  The filesystem is a map from
path to file content; `shutil.move` is the atomic rename. -/

structure SerFileInfo where
  path : String
  times : Option Datetime × Option Datetime
  attr : List (String × String)
deriving Repr, DecidableEq

/-- Modelled from the spec: `FileInfo.to_json_dict`. -/
def FileInfo.to_json_dict (f : FileInfo) : SerFileInfo :=
  { path := f.path, times := (some f.times.1, some f.times.2), attr := f.attr }

/-- Modelled from the spec: `FileInfo.from_json_dict` (times absent in
the record stay unset; both are present for every record `save` wrote). -/
def SerFileInfo.from_json_dict (r : SerFileInfo) : Option FileInfo :=
  match r.times with
  | (some t0, some t1) => some { path := r.path, times := (t0, t1), attr := r.attr }
  | _ => none

/-- A filesystem: path → content of the info-cache file at that path. -/
def FS : Type := String → Option (List SerFileInfo)

def FS.write (fs : FS) (name : String) (content : List SerFileInfo) : FS :=
  fun k => if k = name then some content else fs k

/-- `shutil.move(src, dst)`: rename `src` onto `dst`. -/
def FS.move (fs : FS) (src dst : String) : FS :=
  fun k => if k = dst then fs src else if k = src then none else fs k

/-- The serialized list `save_info_cache` dumps:
`[info.to_json_dict() for info in self.info_cache.values()]`. -/
def serializeCache (cache : List (String × FileInfo)) : List SerFileInfo :=
  cache.map (fun kv => kv.2.to_json_dict)

/-- The first step of `Dataset.save_info_cache(filename)`: write the full
serialized record list to `filename + ".backup"`. -/
def saveInfoCacheStep1 (fs : FS) (filename : String)
    (cache : List (String × FileInfo)) : FS :=
  fs.write (filename ++ ".backup") (serializeCache cache)

/-- `Dataset.save_info_cache(filename)`: write the backup file, then
rename it onto `filename`. -/
def save_info_cache (fs : FS) (filename : String)
    (cache : List (String × FileInfo)) : FS :=
  (saveInfoCacheStep1 fs filename cache).move (filename ++ ".backup") filename

/-- Python `dict` update with one binding: replace in place or append. -/
def dictSet (cache : List (String × FileInfo)) (k : String) (v : FileInfo) :
    List (String × FileInfo) :=
  if (cache.map Prod.fst).contains k then
    cache.map (fun kv => if kv.1 = k then (k, v) else kv)
  else cache ++ [(k, v)]

/-- `Dataset.load_info_cache(filename)`: if the file exists, read the
record list and `update` the in-memory dict with
`{rec["path"]: FileInfo.from_json_dict(rec)}`. -/
def load_info_cache (fs : FS) (filename : String)
    (cache : List (String × FileInfo)) : List (String × FileInfo) :=
  match fs filename with
  | none => cache
  | some recs =>
    recs.foldl
      (fun acc r =>
        match r.from_json_dict with
        | some f => dictSet acc r.path f
        | none => acc)
      cache

/-! ## Class-attribute semantics of `set_placeholders`

`Dataset._user_placeholder = {}` is a **class** attribute (line 200) and
no instance ever assigns `self._user_placeholder`, so
`self._user_placeholder.update(...)` in `set_placeholders` mutates the
one dict shared by every `Dataset` instance.  The world model keeps that
shared dict plus, per instance, its template and its compiled path regex
(embedded as the pair of inputs `re.compile` received: the template and
the placeholder map in force at compile time). -/

/-- `Dataset._complete_placeholders_regex` on one entry:
`(?P<name>value)`. -/
def completePlaceholderRegex (name value : String) : String :=
  "(?P<" ++ name ++ ">" ++ value ++ ")"

/-- String-keyed dict update (insertion order preserved). -/
def strDictSet (d : List (String × String)) (k v : String) :
    List (String × String) :=
  if (d.map Prod.fst).contains k then
    d.map (fun kv => if kv.1 = k then (k, v) else kv)
  else d ++ [(k, v)]

structure DatasetInst where
  path : String
  pathRegex : String × List (String × String)
deriving Repr, DecidableEq

structure World where
  classUserPlaceholder : List (String × String)
  dsA : DatasetInst
  dsB : DatasetInst
deriving Repr, DecidableEq

inductive WhichDS where
  | A
  | B
deriving Repr, DecidableEq

/-- The compiled path regex `_fill_placeholders_with_regexes(self.path)`
builds, embedded as its inputs: the path and the placeholder map used to
fill it. -/
def compileRegex (path : String) (userPlaceholder : List (String × String)) :
    String × List (String × String) :=
  (path, userPlaceholder)

/-- What `X._user_placeholder` evaluates to for an instance `X`: the
attribute is found on the class. -/
def userPlaceholderOf (w : World) (_which : WhichDS) : List (String × String) :=
  w.classUserPlaceholder

/-- `X.set_placeholders(**placeholders)`: `self._user_placeholder.update`
mutates the class-level dict, then recompiles **this** instance's path
regex. -/
def set_placeholders (w : World) (which : WhichDS)
    (placeholders : List (String × String)) : World :=
  let newDict := placeholders.foldl
    (fun d kv => strDictSet d kv.1 (completePlaceholderRegex kv.1 kv.2))
    w.classUserPlaceholder
  match which with
  | .A => { w with classUserPlaceholder := newDict,
                   dsA := { w.dsA with
                            pathRegex := compileRegex w.dsA.path newDict } }
  | .B => { w with classUserPlaceholder := newDict,
                   dsB := { w.dsB with
                            pathRegex := compileRegex w.dsB.path newDict } }

/-! ## Derived notions used by the claim statements -/

/-- The non-`end_` temporal placeholders whose parse/render round trip the
claims quantify over (`year2` and `doy` excluded: `year2` loses the
century, `doy` duplicates `month`/`day`). -/
def allowedStartNames : List String :=
  ["year", "month", "day", "hour", "minute", "second", "millisecond"]

/-- The numeric start-time value a temporal placeholder renders. -/
def startFieldVal (name : String) (t : Datetime) : Nat :=
  if name = "year" then t.year
  else if name = "month" then t.month
  else if name = "day" then t.day
  else if name = "hour" then t.hour
  else if name = "minute" then t.minute
  else if name = "second" then t.second
  else if name = "millisecond" then t.microsecond / 1000
  else 0

/-- The capture dictionary parsing the rendered name must return. -/
def capturesOf (tpl : List Token) (t0 t1 : Datetime) :
    List (String × List Char) :=
  tpl.filterMap (fun t => match t with
    | .lit _ => none
    | .ph n => (renderField n t0 t1).map (fun v => (n, v)))

/-- The start-side `datetime` keyword dictionary that parsing the rendered
name produces: the fields whose placeholders occur, at their start-time
values. -/
def expectedArgs (names : List String) (t0 : Datetime) : DtArgs where
  year := if names.contains "year" then some t0.year else none
  month := if names.contains "month" then some t0.month else none
  day := if names.contains "day" then some t0.day else none
  hour := if names.contains "hour" then some t0.hour else none
  minute := if names.contains "minute" then some t0.minute else none
  second := if names.contains "second" then some t0.second else none
  millisecond := if names.contains "millisecond" then some (t0.microsecond / 1000)
    else none

/-- `t0` truncated to the placeholders present: absent fields below the
day are `datetime`'s defaults (0), the microsecond keeps only whole
milliseconds. -/
def maskStart (names : List String) (t : Datetime) : Datetime where
  year := t.year
  month := t.month
  day := t.day
  hour := if names.contains "hour" then t.hour else 0
  minute := if names.contains "minute" then t.minute else 0
  second := if names.contains "second" then t.second else 0
  microsecond := if names.contains "millisecond" then t.microsecond / 1000 * 1000
    else 0

/-- The standardised start-side keyword dictionary produced for a
template whose placeholders are `allowedStartNames`: the `millisecond`
entry has become `microsecond`. -/
def stdStartArgs (names : List String) (t0 : Datetime) : DtArgs where
  year := if names.contains "year" then some t0.year else none
  month := if names.contains "month" then some t0.month else none
  day := if names.contains "day" then some t0.day else none
  hour := if names.contains "hour" then some t0.hour else none
  minute := if names.contains "minute" then some t0.minute else none
  second := if names.contains "second" then some t0.second else none
  microsecond := if names.contains "millisecond" then
    some (t0.microsecond / 1000 * 1000) else none

/-- Scenario S1's template `"{year}/{month}/{day}/{hour}{minute}{second}.nc"`. -/
def tplS1 : List Token :=
  [.ph "year", .lit "/".toList, .ph "month", .lit "/".toList, .ph "day",
   .lit "/".toList, .ph "hour", .ph "minute", .ph "second", .lit ".nc".toList]

/-- 2017-01-01T00:00:00. -/
def dt2017 : Datetime := ⟨2017, 1, 1, 0, 0, 0, 0⟩

/-- The template `"{year2}{month}{day}.bin"`. -/
def tplYear2 : List Token :=
  [.ph "year2", .ph "month", .ph "day", .lit ".bin".toList]

/-- Scenario S2's template `"{year2}.bin"`. -/
def tplYear2Bin : List Token := [.ph "year2", .lit ".bin".toList]

/-- 2070-01-01T00:00:00. -/
def dt2070 : Datetime := ⟨2070, 1, 1, 0, 0, 0, 0⟩

/-- The claim's template `"{hour}{minute}-{end_hour}{end_minute}.dat"`. -/
def tplHourMinute : List Token :=
  [.ph "hour", .ph "minute", .lit "-".toList,
   .ph "end_hour", .ph "end_minute", .lit ".dat".toList]

/-- The template `"{year}{month}{day}{hour}{minute}-{end_hour}{end_minute}.dat"`
(the claim's template completed with a start date). -/
def tplDateHourMinute : List Token :=
  [.ph "year", .ph "month", .ph "day", .ph "hour", .ph "minute",
   .lit "-".toList, .ph "end_hour", .ph "end_minute", .lit ".dat".toList]

/-- `pd.Grouper(freq="1H")`: floor of the start time to the hour,
as a linear hour index. -/
def hourKey (d : Datetime) : Nat := d.toLinear / 3600000000

def c5FileLate : FileInfo :=
  { path := "f1.nc", times := (⟨2018, 1, 1, 10, 30, 0, 0⟩, ⟨2018, 1, 1, 10, 45, 0, 0⟩) }

def c5FileEarly : FileInfo :=
  { path := "f2.nc", times := (⟨2018, 1, 1, 10, 10, 0, 0⟩, ⟨2018, 1, 1, 10, 20, 0, 0⟩) }

/-- The exclusion interval of scenario S5:
`[2018-06-01T12:00, 2018-06-01T13:00]`. -/
def s5Exclude : List (Datetime × Datetime) :=
  [(⟨2018, 6, 1, 12, 0, 0, 0⟩, ⟨2018, 6, 1, 13, 0, 0, 0⟩)]

/-- S5's excluded file, covering `(2018-06-01T12:30, 2018-06-01T12:45)`. -/
def s5FileInside : FileInfo :=
  { path := "in.nc", times := (⟨2018, 6, 1, 12, 30, 0, 0⟩, ⟨2018, 6, 1, 12, 45, 0, 0⟩) }

/-- S5's kept file, covering `(2018-06-01T13:05, 2018-06-01T13:10)`. -/
def s5FileOutside : FileInfo :=
  { path := "out.nc", times := (⟨2018, 6, 1, 13, 5, 0, 0⟩, ⟨2018, 6, 1, 13, 10, 0, 0⟩) }

def s5Window : Datetime × Datetime :=
  (⟨2018, 6, 1, 12, 0, 0, 0⟩, ⟨2018, 6, 1, 23, 59, 59, 999999⟩)

/-- A sample file for the `find_closest` witness. -/
def c8File : FileInfo :=
  { path := "g.nc", times := (⟨2018, 6, 1, 11, 0, 0, 0⟩, ⟨2018, 6, 1, 11, 30, 0, 0⟩) }

def c8Ts : Datetime := ⟨2018, 6, 1, 11, 15, 0, 0⟩

/-- Sample files for the bundling witness. -/
def c6Files : List FileInfo :=
  [{ path := "b1.nc", times := (⟨2018, 1, 1, 2, 0, 0, 0⟩, ⟨2018, 1, 1, 3, 0, 0, 0⟩) },
   { path := "b2.nc", times := (⟨2018, 1, 1, 0, 0, 0, 0⟩, ⟨2018, 1, 1, 1, 0, 0, 0⟩) },
   { path := "b3.nc", times := (⟨2018, 1, 1, 1, 0, 0, 0⟩, ⟨2018, 1, 1, 2, 0, 0, 0⟩) }]

/-- A sample cache record for the persistence witness. -/
def c7File : FileInfo :=
  { path := "/d/2018/x.nc"
    times := (⟨2018, 1, 1, 0, 0, 0, 0⟩, ⟨2018, 1, 2, 0, 0, 0, 0⟩)
    attr := [("sat", "noaa18")] }

def c7Cache : List (String × FileInfo) := [("/d/2018/x.nc", c7File)]

/-- The empty filesystem. -/
def emptyFS : FS := fun _ => none

/-- The initial world of the placeholder-isolation scenario: a fresh class
dict and two datasets whose regexes were compiled against it. -/
def c10World : World :=
  { classUserPlaceholder := []
    dsA := { path := "/data/a.nc", pathRegex := compileRegex "/data/a.nc" [] }
    dsB := { path := "/db/b.nc", pathRegex := compileRegex "/db/b.nc" [] } }

def c10WorldAfter : World := set_placeholders c10World .A [("foo", "\\d+")]

/-! # Theorems -/

/-! ## C3: the `year2` threshold -/

/-- **C3.** For every two-digit `year2` capture `v` (`0 ≤ v ≤ 99`),
`_standardise_datetime_args` interprets `v` as year `1900 + v` when
`v ≥ 65` (the class attribute `year2_threshold`) and as `2000 + v` when
`v < 65`; in particular the capture `"64"` of template `"{year2}.bin"`
on `"64.bin"` becomes year 2064 and `"65"` of `"65.bin"` becomes 1965. -/
theorem c3_year2_threshold (v : Nat) (hv : v ≤ 99) :
    (_standardise_datetime_args { year2 := some v } =
      .ok { year := some (if v < 65 then 2000 + v else 1900 + v) })
    ∧ (parse_filename tplYear2Bin ("64.bin".toList) =
        .ok [("year2", "64".toList)])
    ∧ (_standardise_datetime_args (startArgsOf [("year2", "64".toList)]) =
        .ok { year := some 2064 })
    ∧ (parse_filename tplYear2Bin ("65.bin".toList) =
        .ok [("year2", "65".toList)])
    ∧ (_standardise_datetime_args (startArgsOf [("year2", "65".toList)]) =
        .ok { year := some 1965 }) := by
  refine ⟨?_, by decide, by decide, by decide, by decide⟩
  by_cases h : v < 65 <;> simp [_standardise_datetime_args, h] <;> rfl

/-- Witness for C3 at `v = 64` and the threshold `v = 65`. -/
theorem c3_year2_threshold_witness :
    (64 ≤ 99 ∧
      (_standardise_datetime_args { year2 := some 64 } =
        .ok { year := some (if 64 < 65 then 2000 + 64 else 1900 + 64) })) ∧
    (65 ≤ 99 ∧
      (_standardise_datetime_args { year2 := some 65 } =
        .ok { year := some (if 65 < 65 then 2000 + 65 else 1900 + 65) })) :=
  ⟨⟨by decide, (c3_year2_threshold 64 (by decide)).1⟩,
   ⟨by decide, (c3_year2_threshold 65 (by decide)).1⟩⟩

/-! ## C9: the search-window validation of `find` -/

/-- **C9, counterexample.** The claim quantifies over *every* timestamp
`t`, but at `t = datetime.min` (linear microsecond count 0) the
normalisation `end -= timedelta(microseconds=1)` itself raises
`OverflowError`, not `ValueError`. -/
theorem c9_counterexample :
    findWindowCheck 0 0 = .error .overflowError ∧
    Except.error PyErr.overflowError ≠
      (Except.error PyErr.valueError : Except PyErr Unit) := by decide

/-- **C9, amended.** For every timestamp strictly after `datetime.min`,
`find(t, t)` raises `ValueError`; for start strictly before end no error
is raised; and for end after `datetime.min` a `ValueError` is raised
exactly when the decremented end is before the start. -/
theorem c9_find_window (t s e : Nat) (ht : 0 < t) (hse : s < e) :
    findWindowCheck t t = .error .valueError
    ∧ findWindowCheck s e = .ok ()
    ∧ (∀ a b : Nat, 0 < b →
        (findWindowCheck a b = .error .valueError ↔ b - 1 < a)) := by
  refine ⟨?_, ?_, ?_⟩
  · unfold findWindowCheck
    split_ifs with h1 h2
    · omega
    · rfl
    · omega
  · unfold findWindowCheck
    split_ifs with h1 h2
    · omega
    · omega
    · rfl
  · intro a b hb
    unfold findWindowCheck
    split_ifs with h1 h2
    · omega
    · simp [h2]
    · simp [h2]

/-- Witness for C9 at `t = 1µs past datetime.min`, `s = 3`, `e = 7`. -/
theorem c9_find_window_witness :
    0 < 1 ∧ 3 < 7 ∧
    (findWindowCheck 1 1 = .error .valueError
      ∧ findWindowCheck 3 7 = .ok ()
      ∧ (∀ a b : Nat, 0 < b →
          (findWindowCheck a b = .error .valueError ↔ b - 1 < a))) :=
  ⟨by decide, by decide, c9_find_window 1 3 7 (by decide) (by decide)⟩

/-! ## C2: end-time advancement -/

/-- **C2, counterexample.** On the claim's own template
`"{hour}{minute}-{end_hour}{end_minute}.dat"` and filename
`"2330-0015.dat"`, parsing succeeds, but `_retrieve_time_coverage` raises
`TypeError`: the start dictionary `{hour: 23, minute: 30}` lacks the
required `year`/`month`/`day` arguments of `datetime(...)`, so no end is
ever computed, let alone advanced. -/
theorem c2_counterexample :
    parse_filename tplHourMinute ("2330-0015.dat".toList) =
      .ok [("hour", "23".toList), ("minute", "30".toList),
           ("end_hour", "00".toList), ("end_minute", "15".toList)]
    ∧ endTimeSuperior tplHourMinute = some 86400000000
    ∧ _retrieve_time_coverage (endTimeSuperior tplHourMinute)
        [("hour", "23".toList), ("minute", "30".toList),
         ("end_hour", "00".toList), ("end_minute", "15".toList)]
      = .error .typeError := by decide

/-- **C2, amended.** When the template also provides the full start date,
the end-advancement behaves as claimed: for template
`"{year}{month}{day}{hour}{minute}-{end_hour}{end_minute}.dat"` and
filename `"201806012330-0015.dat"`, parsing gives start hour 23 and end
hour 0; the superior resolution computed for the `end_hour`/`end_minute`
placeholders is exactly one day, and the end is advanced by it, making
the resulting end (2018-06-02T00:15) later than the start
(2018-06-01T23:30). -/
theorem c2_end_superior :
    parse_filename tplDateHourMinute ("201806012330-0015.dat".toList) =
      .ok [("year", "2018".toList), ("month", "06".toList),
           ("day", "01".toList), ("hour", "23".toList),
           ("minute", "30".toList), ("end_hour", "00".toList),
           ("end_minute", "15".toList)]
    ∧ endTimeSuperior tplDateHourMinute = some 86400000000
    ∧ _retrieve_time_coverage (endTimeSuperior tplDateHourMinute)
        [("year", "2018".toList), ("month", "06".toList),
         ("day", "01".toList), ("hour", "23".toList),
         ("minute", "30".toList), ("end_hour", "00".toList),
         ("end_minute", "15".toList)]
      = .ok (some (some ⟨2018, 6, 1, 23, 30, 0, 0⟩,
                   some ⟨2018, 6, 2, 0, 15, 0, 0⟩))
    ∧ Datetime.lt ⟨2018, 6, 1, 23, 30, 0, 0⟩ ⟨2018, 6, 2, 0, 15, 0, 0⟩ = true
    ∧ Datetime.addMicros ⟨2018, 6, 1, 0, 15, 0, 0⟩ 86400000000 =
        .ok ⟨2018, 6, 2, 0, 15, 0, 0⟩ := by decide

/-! ## C10: placeholder isolation between instances -/

/-- **C10.** `Dataset._user_placeholder` is a class attribute and
`set_placeholders` mutates it in place, so registering a user placeholder
on dataset A is observable through dataset B: after
`A.set_placeholders(foo="\d+")`, B's `_user_placeholder` contains `foo`
(B's compiled path regex alone stays unchanged until B recompiles). -/
theorem c10_shared_user_placeholder :
    userPlaceholderOf c10WorldAfter .B = [("foo", "(?P<foo>\\d+)")]
    ∧ userPlaceholderOf c10WorldAfter .B ≠ userPlaceholderOf c10World .B
    ∧ c10WorldAfter.dsB.pathRegex = c10World.dsB.pathRegex := by decide

/-! ## C5: ordering of `find` results -/

/-- **C5.** With `bundle` set to a frequency string and `sort=False`,
`_prepare_find_files_return` does **not** sort (the `sort or
isinstance(bundle_size, int)` guard excludes string bundles), so the
files inside a bundle stay in discovery order: two files of the same
hour discovered as (10:30, then 10:10) are yielded as the single bundle
`[10:30-file, 10:10-file]`, whose start times decrease — contradicting
both the claim and `find`'s docstring ("the returned files will always
be sorted ignoring the state of the *sort* argument"). -/
theorem c5_freq_bundle_unsorted :
    _prepare_find_files_return [c5FileLate, c5FileEarly] false (.freq hourKey) =
      .ok (.bundles [[c5FileLate, c5FileEarly]])
    ∧ Datetime.lt c5FileEarly.times.1 c5FileLate.times.1 = true := by decide

/-! ## C4: exclusion filtering -/

/-- **C4.** For every non-empty exclusion set and search window, a
candidate file whose time coverage lies inside an excluded interval is
never yielded by the matching-file filter of `find`, while a candidate
whose times are outside all excluded intervals and overlap the window is
yielded. -/
theorem c4_exclusion_filtering (excl : List (Datetime × Datetime))
    (hexcl : excl ≠ []) (w : Datetime × Datetime) (cands : List FileInfo)
    (f : FileInfo) (hf : f ∈ cands) :
    (is_excluded (some excl) f.times = true →
      f ∉ _get_matching_files (some excl) w.1 w.2 cands)
    ∧ (interval_overlaps f.times w = true →
        is_excluded (some excl) f.times = false →
        f ∈ _get_matching_files (some excl) w.1 w.2 cands) := by
  constructor
  · intro hex hmem
    rw [_get_matching_files, List.mem_filter] at hmem
    rw [hex] at hmem
    simp at hmem
  · intro hov hnex
    rw [_get_matching_files, List.mem_filter]
    refine ⟨hf, ?_⟩
    rw [hnex]
    simpa using hov

/-- Witness for C4 at scenario S5: with exclusion
`[2018-06-01T12:00, 2018-06-01T13:00]`, the file covering
`(12:30, 12:45)` is dropped and the file covering `(13:05, 13:10)` is
kept. -/
theorem c4_exclusion_filtering_witness :
    (s5Exclude ≠ [] ∧ s5FileInside ∈ [s5FileInside, s5FileOutside] ∧
      is_excluded (some s5Exclude) s5FileInside.times = true ∧
      s5FileInside ∉ _get_matching_files (some s5Exclude) s5Window.1 s5Window.2
        [s5FileInside, s5FileOutside])
    ∧ (interval_overlaps s5FileOutside.times s5Window = true ∧
      is_excluded (some s5Exclude) s5FileOutside.times = false ∧
      s5FileOutside ∈ _get_matching_files (some s5Exclude) s5Window.1 s5Window.2
        [s5FileInside, s5FileOutside]) :=
  ⟨⟨by decide, by decide, by decide,
    (c4_exclusion_filtering s5Exclude (by decide) s5Window
      [s5FileInside, s5FileOutside] s5FileInside (by decide)).1 (by decide)⟩,
   ⟨by decide, by decide,
    (c4_exclusion_filtering s5Exclude (by decide) s5Window
      [s5FileInside, s5FileOutside] s5FileOutside (by decide)).2
      (by decide) (by decide)⟩⟩

/-! ## C8: `find_closest` with an empty bounded search -/

/-- The first minimum returned by `np.argmin` is an element of the
list. -/
theorem argminBy_mem (dist : FileInfo → Nat) :
    ∀ l : List FileInfo, l ≠ [] → ∃ f ∈ l, argminBy dist l = some f := by
  intro l
  induction l with
  | nil => intro h; exact absurd rfl h
  | cons a rest ih =>
    intro _
    cases h : argminBy dist rest with
    | none =>
      exact ⟨a, List.mem_cons_self _ _, by simp [argminBy, h]⟩
    | some g =>
      have hrest : rest ≠ [] := by
        intro he
        subst he
        simp [argminBy] at h
      obtain ⟨f, hf, hfe⟩ := ih hrest
      rw [hfe] at h
      injection h with h
      subst h
      by_cases hd : dist a ≤ dist f
      · exact ⟨a, List.mem_cons_self _ _, by simp [argminBy, hfe, hd]⟩
      · exact ⟨f, List.mem_cons_of_mem _ hf, by simp [argminBy, hfe, hd]⟩

/-- **C8, counterexample.** When the bounded search finds no files,
`find_closest` does *not* return `None`: the `find` call inside it keeps
`no_files_error=True`, so listing the empty generator raises
`NoFilesError` before the `return None` line (930–931) can run. -/
theorem c8_counterexample :
    findClosestSearch c8Ts [] = .error .noFilesError
    ∧ findClosestSearch c8Ts [] ≠ .ok none := by decide

/-- **C8, amended.** On a multi-file dataset whose direct render misses,
`find_closest` raises `NoFilesError` when the bounded search finds no
files (the `return None` branch is unreachable), and returns one of the
found files otherwise — never `None`. -/
theorem c8_find_closest (ts : Datetime) (discovered : List FileInfo) :
    (discovered = [] → findClosestSearch ts discovered = .error .noFilesError)
    ∧ (discovered ≠ [] →
        ∃ f ∈ discovered, findClosestSearch ts discovered = .ok (some f)) := by
  constructor
  · intro h
    subst h
    rfl
  · intro h
    have hstream : findStream discovered true = .ok discovered := by
      unfold findStream
      simp [h]
    have hred : findClosestSearch ts discovered =
        (if discovered.isEmpty then pure none
         else match discovered.find? (fun f => interval_contains f.times ts) with
           | some f => pure (some f)
           | none => pure (argminBy (closestDist ts) discovered)) := by
      unfold findClosestSearch
      rw [hstream]
      rfl
    rw [hred]
    have hne : discovered.isEmpty = false := by simp [h]
    rw [hne]
    simp only [Bool.false_eq_true, if_false]
    cases hfind : discovered.find? (fun f => interval_contains f.times ts) with
    | some f =>
      exact ⟨f, List.mem_of_find?_eq_some hfind, rfl⟩
    | none =>
      obtain ⟨f, hf, hfe⟩ := argminBy_mem (closestDist ts) discovered h
      refine ⟨f, hf, ?_⟩
      rw [hfe]
      rfl

/-- Witness for C8 with one discovered file. -/
theorem c8_find_closest_witness :
    ([c8File] ≠ ([] : List FileInfo)) ∧
    ∃ f ∈ [c8File], findClosestSearch c8Ts [c8File] = .ok (some f) :=
  ⟨by decide, (c8_find_closest c8Ts [c8File]).2 (by decide)⟩

/-! ## C7: info-cache persistence -/

theorem backup_name_ne (filename : String) :
    filename ≠ filename ++ ".backup" := by
  intro h
  have hlen := congrArg String.length h
  rw [String.length_append] at hlen
  have h7 : (".backup" : String).length = 7 := rfl
  omega

/-- Loading the serialized records into an empty dict recovers the cache
records exactly (keys are the paths, which are unique). -/
theorem load_fold_exact (cache acc : List (String × FileInfo))
    (hpaths : ∀ kv ∈ cache, kv.2.path = kv.1)
    (hnodup : ((acc ++ cache).map Prod.fst).Nodup) :
    (serializeCache cache).foldl
      (fun acc r =>
        match r.from_json_dict with
        | some f => dictSet acc r.path f
        | none => acc)
      acc = acc ++ cache := by
  induction cache generalizing acc with
  | nil => simp [serializeCache]
  | cons kv rest ih =>
    simp only [serializeCache, List.map_cons, List.foldl_cons]
    have hpath : kv.2.path = kv.1 := hpaths kv (List.mem_cons_self _ _)
    have hkey : kv.1 ∉ acc.map Prod.fst := by
      intro hmem
      rw [List.map_append, List.nodup_append] at hnodup
      exact hnodup.2.2 hmem (by simp)
    have hstep :
        (match (FileInfo.to_json_dict kv.2).from_json_dict with
          | some f => dictSet acc (FileInfo.to_json_dict kv.2).path f
          | none => acc) = acc ++ [(kv.1, kv.2)] := by
      show dictSet acc kv.2.path kv.2 = acc ++ [(kv.1, kv.2)]
      unfold dictSet
      rw [hpath]
      rw [if_neg (by simpa using hkey)]
    rw [hstep]
    have hkv : (kv.1, kv.2) = kv := rfl
    rw [hkv]
    have hser : List.map (fun kv => kv.2.to_json_dict) rest = serializeCache rest :=
      rfl
    have := ih (acc ++ [kv])
      (fun p hp => hpaths p (List.mem_cons_of_mem _ hp))
      (by simpa using hnodup)
    rw [hser, this]
    simp

/-- **C7.** A completed `save_info_cache(filename)` writes the serialized
record list through `filename + ".backup"` and renames it onto
`filename`, after which `load_info_cache(filename)` into an empty cache
recovers exactly the cached records; the backup-write step alone (a crash
before the rename) leaves the previous contents of `filename`
unchanged. -/
theorem c7_cache_persistence (fs : FS) (filename : String)
    (cache : List (String × FileInfo))
    (hpaths : ∀ kv ∈ cache, kv.2.path = kv.1)
    (hnodup : (cache.map Prod.fst).Nodup) :
    load_info_cache (save_info_cache fs filename cache) filename [] = cache
    ∧ saveInfoCacheStep1 fs filename cache filename = fs filename := by
  constructor
  · have hread : save_info_cache fs filename cache filename =
        some (serializeCache cache) := by
      unfold save_info_cache FS.move saveInfoCacheStep1 FS.write
      simp
    unfold load_info_cache
    rw [hread]
    exact load_fold_exact cache [] hpaths (by simpa using hnodup)
  · unfold saveInfoCacheStep1 FS.write
    rw [if_neg (backup_name_ne filename)]

/-- Witness for C7 with a one-record cache on the empty filesystem. -/
theorem c7_cache_persistence_witness :
    (∀ kv ∈ c7Cache, kv.2.path = kv.1) ∧ (c7Cache.map Prod.fst).Nodup ∧
    (load_info_cache (save_info_cache emptyFS "cache.json" c7Cache)
        "cache.json" [] = c7Cache
      ∧ saveInfoCacheStep1 emptyFS "cache.json" c7Cache "cache.json" =
          emptyFS "cache.json") :=
  ⟨by decide, by decide,
   c7_cache_persistence emptyFS "cache.json" c7Cache (by decide) (by decide)⟩

/-! ## C6: integer bundling -/

theorem insertByStart_perm (f : FileInfo) (l : List FileInfo) :
    (insertByStart f l).Perm (f :: l) := by
  induction l with
  | nil => simp [insertByStart]
  | cons g rest ih =>
    rw [insertByStart]
    by_cases h : Datetime.lt f.times.1 g.times.1
    · simp [h]
    · simp only [h, Bool.false_eq_true, if_false]
      exact (List.Perm.cons g ih).trans (List.Perm.swap f g rest)

theorem sortByStart_perm (l : List FileInfo) : (sortByStart l).Perm l := by
  induction l with
  | nil => simp [sortByStart]
  | cons f rest ih =>
    have : sortByStart (f :: rest) = insertByStart f (sortByStart rest) := rfl
    rw [this]
    exact (insertByStart_perm f (sortByStart rest)).trans (List.Perm.cons f ih)

theorem chunkList_eq_nil_iff (n : Nat) (l : List FileInfo) :
    chunkList n l = [] ↔ n = 0 ∨ l = [] := by
  constructor
  · intro h
    by_contra hc
    rw [chunkList] at h
    rw [dif_neg hc] at h
    exact List.cons_ne_nil _ _ h
  · intro h
    rw [chunkList, dif_pos h]

theorem chunkList_flatten (n : Nat) (hn : n ≠ 0) (l : List FileInfo) :
    (chunkList n l).flatten = l := by
  have H : ∀ fuel l2 : _, List.length l2 ≤ fuel → (chunkList n l2).flatten = l2 := by
    intro fuel
    induction fuel with
    | zero =>
      intro l2 hl
      have h2 : l2 = [] := List.eq_nil_of_length_eq_zero (by omega)
      rw [chunkList, dif_pos (Or.inr h2), h2]
      rfl
    | succ m ih =>
      intro l2 hl
      rw [chunkList]
      split
      · rename_i hor
        rcases hor with h | h
        · exact absurd h hn
        · rw [h]; rfl
      · rename_i hor
        push_neg at hor
        simp only [List.flatten_cons]
        have hpos : 0 < l2.length := List.length_pos.mpr hor.2
        have hdrop : (l2.drop n).length = l2.length - n := List.length_drop n l2
        rw [ih (l2.drop n) (by omega)]
        exact List.take_append_drop n l2
  exact H l.length l le_rfl

theorem chunkList_mem_size (n : Nat) (hn : 0 < n) (l : List FileInfo) :
    ∀ b ∈ chunkList n l, 1 ≤ b.length ∧ b.length ≤ n := by
  have H : ∀ fuel l2 : _, List.length l2 ≤ fuel →
      ∀ b ∈ chunkList n l2, 1 ≤ b.length ∧ b.length ≤ n := by
    intro fuel
    induction fuel with
    | zero =>
      intro l2 hl b hb
      have h2 : l2 = [] := List.eq_nil_of_length_eq_zero (by omega)
      rw [chunkList, dif_pos (Or.inr h2)] at hb
      simp at hb
    | succ m ih =>
      intro l2 hl b hb
      rw [chunkList] at hb
      split at hb
      · simp at hb
      · rename_i hor
        push_neg at hor
        rcases List.mem_cons.mp hb with h | h
        · subst h
          have hpos : 0 < l2.length := List.length_pos.mpr hor.2
          simp only [List.length_take]
          omega
        · have hpos : 0 < l2.length := List.length_pos.mpr hor.2
          have hdrop : (l2.drop n).length = l2.length - n := List.length_drop n l2
          exact ih (l2.drop n) (by omega) b h
  exact H l.length l le_rfl

theorem chunkList_dropLast_size (n : Nat) (hn : 0 < n) (l : List FileInfo) :
    ∀ b ∈ (chunkList n l).dropLast, b.length = n := by
  have H : ∀ fuel l2 : _, List.length l2 ≤ fuel →
      ∀ b ∈ (chunkList n l2).dropLast, b.length = n := by
    intro fuel
    induction fuel with
    | zero =>
      intro l2 hl b hb
      have h2 : l2 = [] := List.eq_nil_of_length_eq_zero (by omega)
      rw [chunkList, dif_pos (Or.inr h2)] at hb
      simp at hb
    | succ m ih =>
      intro l2 hl b hb
      rw [chunkList] at hb
      split at hb
      · simp at hb
      · rename_i hor
        push_neg at hor
        cases hrest : chunkList n (l2.drop n) with
        | nil =>
          rw [hrest] at hb
          simp at hb
        | cons r rs =>
          rw [hrest, List.dropLast_cons₂] at hb
          have hdropne : l2.drop n ≠ [] := by
            intro hd
            rw [(chunkList_eq_nil_iff n (l2.drop n)).mpr (Or.inr hd)] at hrest
            exact List.cons_ne_nil _ _ hrest.symm
          have hlong : n < l2.length := by
            have := List.length_pos.mpr hdropne
            have hdrop : (l2.drop n).length = l2.length - n := List.length_drop n l2
            omega
          rcases List.mem_cons.mp hb with h | h
          · subst h
            simp only [List.length_take]
            omega
          · have hdrop : (l2.drop n).length = l2.length - n := List.length_drop n l2
            have := ih (l2.drop n) (by omega) b
            rw [hrest] at this
            exact this h
  exact H l.length l le_rfl

/-- **C6.** For every integer `N ≥ 1` and non-empty discovered file list,
`find` with `bundle=N` yields the chunks of the sorted list: their
concatenation is exactly the sorted file list (a permutation of the
input, so nothing is lost or duplicated), every group has size in
`[1, N]`, and every group except possibly the last has size exactly
`N`. -/
theorem c6_integer_bundling (files : List FileInfo) (n : Nat)
    (sortFlag : Bool) (hn : 0 < n) (hK : files ≠ []) :
    _prepare_find_files_return files sortFlag (.int n) =
      .ok (.bundles (chunkList n (sortByStart files)))
    ∧ (chunkList n (sortByStart files)).flatten = sortByStart files
    ∧ (chunkList n (sortByStart files)).flatten.Perm files
    ∧ (∀ b ∈ chunkList n (sortByStart files), 1 ≤ b.length ∧ b.length ≤ n)
    ∧ (∀ b ∈ (chunkList n (sortByStart files)).dropLast, b.length = n) := by
  have hn0 : n ≠ 0 := by omega
  refine ⟨?_, chunkList_flatten n hn0 _, ?_,
    chunkList_mem_size n hn _, chunkList_dropLast_size n hn _⟩
  · unfold _prepare_find_files_return BundleArg.isInt
    simp [hn0]
  · rw [chunkList_flatten n hn0]
    exact sortByStart_perm files

/-! ## C1: render/parse round trip

The round-trip theorem is proved for templates whose placeholders are
distinct non-`end_` temporal fields drawn from `allowedStartNames`,
include a complete date (`year`, `month`, `day`), and whose literal runs
are `litRegexSafe` — the compilation escapes only `.`, so a literal
`+`, `^` or `$` would stay active regex syntax and make the program's
`parse_filename` fail on the rendered name even though
`generate_filename` succeeded.  The counterexample below shows why
`year2` has to be excluded. -/

theorem daysInMonth_le (y m : Nat) : daysInMonth y m ≤ 31 := by
  unfold daysInMonth
  split_ifs <;> omega

theorem Datetime.valid_fields (d : Datetime) (h : d.valid = true) :
    1 ≤ d.year ∧ d.year ≤ 9999 ∧ 1 ≤ d.month ∧ d.month ≤ 12 ∧ 1 ≤ d.day ∧
    d.day ≤ daysInMonth d.year d.month ∧ d.hour ≤ 23 ∧ d.minute ≤ 59 ∧
    d.second ≤ 59 ∧ d.microsecond ≤ 999999 := by
  unfold Datetime.valid at h
  simp only [Bool.and_eq_true, decide_eq_true_eq] at h
  tauto

theorem padZero_spec (w n : Nat) (hw : 0 < w) (h : n < 10 ^ w) :
    (padZero w n).length = w ∧ (padZero w n).all isDigitChar = true ∧
    digitsVal (padZero w n) = n :=
  ⟨padZero_length w n (natToChars_le_padZero w n h hw),
   List.all_eq_true.mpr (padZero_all_digits w n),
   digitsVal_padZero w n⟩

/-- Every allowed temporal placeholder renders (for a valid start time
with a four-digit year) to an all-digit string of exactly the width its
parsing regex captures, and parsing the digits back recovers the
field. -/
theorem renderField_spec (nm : String) (t0 : Datetime)
    (hvalid : t0.valid = true) (hyear : 1000 ≤ t0.year)
    (hmem : nm ∈ allowedStartNames) :
    ∃ v, renderField nm t0 t0 = some v ∧
      timePlaceholderWidth nm = some v.length ∧
      v.all isDigitChar = true ∧
      digitsVal v = startFieldVal nm t0 := by
  obtain ⟨h1, h2, h3, h4, h5, h6, h7, h8, h9, h10⟩ := Datetime.valid_fields t0 hvalid
  have hdm := daysInMonth_le t0.year t0.month
  simp only [allowedStartNames, List.mem_cons, List.not_mem_nil, or_false] at hmem
  rcases hmem with rfl | rfl | rfl | rfl | rfl | rfl | rfl
  case _ =>
    refine ⟨natToChars t0.year, ?_, ?_, ?_, ?_⟩
    · simp [renderField, show strStartsWith "year" "end_" = false from by decide]
    · have := natToChars_length_of_range t0.year 4 (by omega)
        (by norm_num; omega) (by norm_num; omega)
      simp [timePlaceholderWidth, this]
    · exact List.all_eq_true.mpr (natToChars_all_digits t0.year)
    · simp [digitsVal_natToChars, startFieldVal]
  case _ =>
    obtain ⟨hl, ha, hv⟩ := padZero_spec 2 t0.month (by omega) (by omega)
    refine ⟨padZero 2 t0.month, ?_, ?_, ha, ?_⟩
    · simp [renderField, show strStartsWith "month" "end_" = false from by decide]
    · simp [timePlaceholderWidth, hl]
    · simp [hv, startFieldVal]
  case _ =>
    obtain ⟨hl, ha, hv⟩ := padZero_spec 2 t0.day (by omega) (by omega)
    refine ⟨padZero 2 t0.day, ?_, ?_, ha, ?_⟩
    · simp [renderField, show strStartsWith "day" "end_" = false from by decide]
    · simp [timePlaceholderWidth, hl]
    · simp [hv, startFieldVal]
  case _ =>
    obtain ⟨hl, ha, hv⟩ := padZero_spec 2 t0.hour (by omega) (by omega)
    refine ⟨padZero 2 t0.hour, ?_, ?_, ha, ?_⟩
    · simp [renderField, show strStartsWith "hour" "end_" = false from by decide]
    · simp [timePlaceholderWidth, hl]
    · simp [hv, startFieldVal]
  case _ =>
    obtain ⟨hl, ha, hv⟩ := padZero_spec 2 t0.minute (by omega) (by omega)
    refine ⟨padZero 2 t0.minute, ?_, ?_, ha, ?_⟩
    · simp [renderField, show strStartsWith "minute" "end_" = false from by decide]
    · simp [timePlaceholderWidth, hl]
    · simp [hv, startFieldVal]
  case _ =>
    obtain ⟨hl, ha, hv⟩ := padZero_spec 2 t0.second (by omega) (by omega)
    refine ⟨padZero 2 t0.second, ?_, ?_, ha, ?_⟩
    · simp [renderField, show strStartsWith "second" "end_" = false from by decide]
    · simp [timePlaceholderWidth, hl]
    · simp [hv, startFieldVal]
  case _ =>
    obtain ⟨hl, ha, hv⟩ := padZero_spec 3 (t0.microsecond / 1000) (by omega) (by omega)
    refine ⟨padZero 3 (t0.microsecond / 1000), ?_, ?_, ha, ?_⟩
    · simp [renderField,
        show strStartsWith "millisecond" "end_" = false from by decide]
    · simp [timePlaceholderWidth, hl]
    · simp [hv, startFieldVal]

theorem dropExact_self_append (l s : List Char) : dropExact l (l ++ s) = some s := by
  induction l with
  | nil => rfl
  | cons c rest ih => simp [dropExact, ih]

theorem takeFixed_exact (v s : List Char) (hd : v.all isDigitChar = true) :
    takeFixed v.length (v ++ s) = some (v, s) := by
  unfold takeFixed
  rw [List.take_left, List.drop_left]
  simp [hd]

theorem phNames_cons_lit (l : List Char) (tl : List Token) :
    phNames (.lit l :: tl) = phNames tl := by
  simp [phNames]

theorem phNames_cons_ph (n : String) (tl : List Token) :
    phNames (.ph n :: tl) = n :: phNames tl := by
  simp [phNames]

/-- The compiled regex of an all-temporal template matches the rendered
name with exactly the captures the rendering filled in (the match is a
forced segmentation: every group has fixed width). -/
theorem parseCore_renderRaw (t0 : Datetime)
    (hvalid : t0.valid = true) (hyear : 1000 ≤ t0.year) :
    ∀ (tpl : List Token), (∀ nm ∈ phNames tpl, nm ∈ allowedStartNames) →
    ∀ rest, parseCore tpl (renderRaw tpl t0 t0 ++ rest) =
      some (capturesOf tpl t0 t0, rest) := by
  intro tpl
  induction tpl with
  | nil =>
    intro _ rest
    simp [renderRaw, capturesOf, parseCore]
  | cons tok tl ih =>
    intro hall rest
    cases tok with
    | lit l =>
      have htl : ∀ nm ∈ phNames tl, nm ∈ allowedStartNames := by
        intro nm h
        exact hall nm (by rw [phNames_cons_lit]; exact h)
      have hrw : renderRaw (.lit l :: tl) t0 t0 = l ++ renderRaw tl t0 t0 := by
        simp [renderRaw]
      have hcap : capturesOf (.lit l :: tl) t0 t0 = capturesOf tl t0 t0 := by
        simp [capturesOf]
      rw [hrw, hcap, List.append_assoc]
      show (do
        let s' ← dropExact l (l ++ (renderRaw tl t0 t0 ++ rest))
        parseCore tl s') = some (capturesOf tl t0 t0, rest)
      rw [dropExact_self_append]
      exact ih htl rest
    | ph n =>
      have hmem : n ∈ allowedStartNames := by
        refine hall n ?_
        rw [phNames_cons_ph]
        exact List.mem_cons_self _ _
      have htl : ∀ nm ∈ phNames tl, nm ∈ allowedStartNames := by
        intro nm h
        refine hall nm ?_
        rw [phNames_cons_ph]
        exact List.mem_cons_of_mem _ h
      obtain ⟨v, hrf, hw, hdig, _⟩ := renderField_spec n t0 hvalid hyear hmem
      have hrw : renderRaw (.ph n :: tl) t0 t0 = v ++ renderRaw tl t0 t0 := by
        simp [renderRaw, hrf]
      have hcap : capturesOf (.ph n :: tl) t0 t0 =
          (n, v) :: capturesOf tl t0 t0 := by
        simp [capturesOf, hrf]
      rw [hrw, hcap, List.append_assoc]
      show (do
        let w ← timePlaceholderWidth n
        let (v', s') ← takeFixed w (v ++ (renderRaw tl t0 t0 ++ rest))
        let (caps, s'') ← parseCore tl s'
        some ((n, v') :: caps, s'')) = some ((n, v) :: capturesOf tl t0 t0, rest)
      rw [hw]
      show (do
        let (v', s') ← takeFixed v.length (v ++ (renderRaw tl t0 t0 ++ rest))
        let (caps, s'') ← parseCore tl s'
        some ((n, v') :: caps, s'')) = some ((n, v) :: capturesOf tl t0 t0, rest)
      rw [takeFixed_exact v _ hdig]
      show (do
        let (caps, s'') ← parseCore tl (renderRaw tl t0 t0 ++ rest)
        some ((n, v) :: caps, s'')) = some ((n, v) :: capturesOf tl t0 t0, rest)
      rw [ih htl rest]
      rfl

theorem mapM_tokenStr (t0 : Datetime)
    (hvalid : t0.valid = true) (hyear : 1000 ≤ t0.year) :
    ∀ (tpl : List Token), (∀ nm ∈ phNames tpl, nm ∈ allowedStartNames) →
    tpl.mapM (tokenStr t0 t0 []) = .ok (tpl.map (fun t => match t with
      | .lit l => l
      | .ph n => (renderField n t0 t0).getD [])) := by
  intro tpl
  induction tpl with
  | nil => intro _; rfl
  | cons tok tl ih =>
    intro hall
    cases tok with
    | lit l =>
      have htl : ∀ nm ∈ phNames tl, nm ∈ allowedStartNames := by
        intro nm h
        exact hall nm (by rw [phNames_cons_lit]; exact h)
      rw [List.mapM_cons, ih htl]
      rfl
    | ph n =>
      have hmem : n ∈ allowedStartNames := by
        refine hall n ?_
        rw [phNames_cons_ph]
        exact List.mem_cons_self _ _
      have htl : ∀ nm ∈ phNames tl, nm ∈ allowedStartNames := by
        intro nm h
        refine hall nm ?_
        rw [phNames_cons_ph]
        exact List.mem_cons_of_mem _ h
      obtain ⟨v, hrf, _, _, _⟩ := renderField_spec n t0 hvalid hyear hmem
      have hts : tokenStr t0 t0 [] (Token.ph n) = .ok v := by
        simp [tokenStr, hrf]
      rw [List.mapM_cons, ih htl, hts]
      simp [hrf]
      rfl

/-- A successful `generate_filename` returns exactly the concatenation of
the rendered pieces. -/
theorem generate_eq_renderRaw (tpl : List Token) (t0 : Datetime) (s : List Char)
    (hvalid : t0.valid = true) (hyear : 1000 ≤ t0.year)
    (hall : ∀ nm ∈ phNames tpl, nm ∈ allowedStartNames)
    (h : generate_filename tpl t0 t0 [] = .ok s) :
    s = renderRaw tpl t0 t0 := by
  unfold generate_filename at h
  rw [mapM_tokenStr t0 hvalid hyear tpl hall] at h
  have h2 : (if ((tpl.map (fun t => match t with
      | .lit l => l
      | .ph n => (renderField n t0 t0).getD [])).flatten).any
        (fun c => specialChars.contains c) then
      (Except.error (α := List Char) PyErr.unfilledPlaceholderError)
    else .ok ((tpl.map (fun t => match t with
      | .lit l => l
      | .ph n => (renderField n t0 t0).getD [])).flatten)) = .ok s := h
  split at h2
  · exact absurd h2 (by simp)
  · injection h2 with h3
    rw [← h3]
    rfl

/-- Folding the captured start fields into the keyword dictionary sets
exactly the fields whose placeholders occur. -/
theorem setStart_fold (t0 : Datetime) :
    ∀ (names : List String), (∀ n ∈ names, n ∈ allowedStartNames) → names.Nodup →
    ∀ a : DtArgs,
      names.foldl (fun a n => DtArgs.setStart a n (startFieldVal n t0)) a =
        DtArgs.merge a (expectedArgs names t0) := by
  intro names
  induction names with
  | nil =>
    intro _ _ a
    show a = DtArgs.merge a (expectedArgs [] t0)
    cases a
    rfl
  | cons n rest ih =>
    intro hall hnd a
    have hnotmem : n ∉ rest := (List.nodup_cons.mp hnd).1
    have hrest : ∀ m ∈ rest, m ∈ allowedStartNames := fun m hm =>
      hall m (List.mem_cons_of_mem _ hm)
    have hndrest := (List.nodup_cons.mp hnd).2
    rw [List.foldl_cons, ih hrest hndrest]
    have hn := hall n (List.mem_cons_self _ _)
    simp only [allowedStartNames, List.mem_cons, List.not_mem_nil, or_false] at hn
    rcases hn with rfl | rfl | rfl | rfl | rfl | rfl | rfl <;>
      simp +decide [DtArgs.setStart, DtArgs.merge, expectedArgs,
        List.contains_cons, hnotmem, startFieldVal]

theorem capturesOf_eq_map (t0 : Datetime)
    (hvalid : t0.valid = true) (hyear : 1000 ≤ t0.year) :
    ∀ tpl : List Token, (∀ nm ∈ phNames tpl, nm ∈ allowedStartNames) →
    capturesOf tpl t0 t0 =
      (phNames tpl).map (fun n => (n, (renderField n t0 t0).getD [])) := by
  intro tpl
  induction tpl with
  | nil => intro _; rfl
  | cons tok tl ih =>
    intro hall
    cases tok with
    | lit l =>
      have htl : ∀ nm ∈ phNames tl, nm ∈ allowedStartNames := by
        intro nm h
        exact hall nm (by rw [phNames_cons_lit]; exact h)
      rw [phNames_cons_lit]
      have : capturesOf (.lit l :: tl) t0 t0 = capturesOf tl t0 t0 := by
        simp [capturesOf]
      rw [this, ih htl]
    | ph n =>
      have hmem : n ∈ allowedStartNames :=
        hall n (by rw [phNames_cons_ph]; exact List.mem_cons_self _ _)
      have htl : ∀ nm ∈ phNames tl, nm ∈ allowedStartNames := by
        intro nm h
        exact hall nm (by rw [phNames_cons_ph]; exact List.mem_cons_of_mem _ h)
      obtain ⟨v, hrf, _, _, _⟩ := renderField_spec n t0 hvalid hyear hmem
      rw [phNames_cons_ph, List.map_cons]
      have : capturesOf (.ph n :: tl) t0 t0 = (n, v) :: capturesOf tl t0 t0 := by
        simp [capturesOf, hrf]
      rw [this, ih htl, hrf]
      rfl

theorem startArgsOf_caps (t0 : Datetime)
    (hvalid : t0.valid = true) (hyear : 1000 ≤ t0.year)
    (names : List String) (hall : ∀ n ∈ names, n ∈ allowedStartNames)
    (hnd : names.Nodup) :
    startArgsOf (names.map (fun n => (n, (renderField n t0 t0).getD []))) =
      expectedArgs names t0 := by
  unfold startArgsOf
  rw [List.foldl_map]
  have hext : List.foldl (fun (a : DtArgs) n =>
      if strStartsWith n "end_" then a
      else DtArgs.setStart a n (digitsVal ((renderField n t0 t0).getD []))) {} names
      = List.foldl (fun a n => DtArgs.setStart a n (startFieldVal n t0)) {} names := by
    apply List.foldl_ext
    intro a n hn
    have hmem := hall n hn
    obtain ⟨v, hrf, _, _, hval⟩ := renderField_spec n t0 hvalid hyear hmem
    have hnostart : strStartsWith n "end_" = false := by
      simp only [allowedStartNames, List.mem_cons, List.not_mem_nil, or_false] at hmem
      rcases hmem with rfl|rfl|rfl|rfl|rfl|rfl|rfl <;> decide
    rw [hnostart, hrf]
    simp [hval]
  rw [hext, setStart_fold t0 names hall hnd]
  have hme : ∀ e : DtArgs, DtArgs.merge {} e = e := by
    intro e
    cases e
    simp [DtArgs.merge]
  exact hme _

theorem endArgsOf_allowed (caps : List (String × List Char))
    (h : ∀ kv ∈ caps, kv.1 ∈ allowedStartNames) :
    endArgsOf caps = {} := by
  unfold endArgsOf
  induction caps with
  | nil => rfl
  | cons kv rest ih =>
    rw [List.foldl_cons]
    have hmem := h kv (List.mem_cons_self _ _)
    have hnostart : strStartsWith kv.1 "end_" = false := by
      simp only [allowedStartNames, List.mem_cons, List.not_mem_nil, or_false] at hmem
      rcases hmem with h'|h'|h'|h'|h'|h'|h' <;> rw [h'] <;> decide
    rw [hnostart]
    simp only [Bool.false_and, Bool.false_eq_true, if_false]
    exact ih (fun p hp => h p (List.mem_cons_of_mem _ hp))

theorem standardise_expectedArgs (names : List String) (t0 : Datetime) :
    _standardise_datetime_args (expectedArgs names t0) =
      .ok (stdStartArgs names t0) := by
  by_cases hms : "millisecond" ∈ names <;>
    simp [_standardise_datetime_args, expectedArgs, stdStartArgs, hms] <;> rfl

theorem maskStart_valid (names : List String) (t0 : Datetime)
    (h : t0.valid = true) : (maskStart names t0).valid = true := by
  obtain ⟨h1, h2, h3, h4, h5, h6, h7, h8, h9, h10⟩ := Datetime.valid_fields t0 h
  have hdiv : t0.microsecond / 1000 * 1000 ≤ t0.microsecond :=
    Nat.div_mul_le_self _ _
  unfold Datetime.valid maskStart
  simp only [Bool.and_eq_true, decide_eq_true_eq]
  repeat' apply And.intro
  all_goals first
    | assumption
    | (split_ifs <;> omega)

theorem mkDatetime_masked (names : List String) (t0 : Datetime)
    (hvalid : t0.valid = true)
    (hy : "year" ∈ names) (hm : "month" ∈ names) (hd : "day" ∈ names) :
    mkDatetime (stdStartArgs names t0) = .ok (maskStart names t0) := by
  have hyc : names.contains "year" = true := by simpa using hy
  have hmc : names.contains "month" = true := by simpa using hm
  have hdc : names.contains "day" = true := by simpa using hd
  have hmaskeq : (Datetime.mk t0.year t0.month t0.day
      ((if names.contains "hour" then some t0.hour else none).getD 0)
      ((if names.contains "minute" then some t0.minute else none).getD 0)
      ((if names.contains "second" then some t0.second else none).getD 0)
      ((if names.contains "millisecond" then
          some (t0.microsecond / 1000 * 1000) else none).getD 0))
      = maskStart names t0 := by
    unfold maskStart
    congr 1 <;> (split_ifs <;> rfl)
  unfold mkDatetime stdStartArgs
  simp only [hyc, hmc, hdc, if_true]
  rw [if_neg (by simp)]
  rw [hmaskeq]
  rw [if_pos (maskStart_valid names t0 hvalid)]

/-- `_retrieve_time_coverage` on the captures of a rendered all-temporal
template returns the start time truncated to the placeholders present and
no end time (there are no `end_*` captures; `get_info` later completes
the missing end to the start). -/
theorem retrieveTimeCoverage_caps (tpl : List Token) (t0 : Datetime)
    (hvalid : t0.valid = true) (hyear : 1000 ≤ t0.year)
    (hall : ∀ nm ∈ phNames tpl, nm ∈ allowedStartNames)
    (hnd : (phNames tpl).Nodup)
    (hy : "year" ∈ phNames tpl) (hm : "month" ∈ phNames tpl)
    (hd : "day" ∈ phNames tpl) :
    _retrieve_time_coverage (endTimeSuperior tpl) (capturesOf tpl t0 t0) =
      .ok (some (some (maskStart (phNames tpl) t0), none)) := by
  have hcaps := capturesOf_eq_map t0 hvalid hyear tpl hall
  have hstart : startArgsOf (capturesOf tpl t0 t0) =
      expectedArgs (phNames tpl) t0 := by
    rw [hcaps]
    exact startArgsOf_caps t0 hvalid hyear (phNames tpl) hall hnd
  have hend : endArgsOf (capturesOf tpl t0 t0) = {} := by
    apply endArgsOf_allowed
    intro kv hkv
    rw [hcaps] at hkv
    obtain ⟨n, hn, heq⟩ := List.mem_map.mp hkv
    rw [← heq]
    exact hall n hn
  have h2da : _to_datetime_args (capturesOf tpl t0 t0) =
      .ok (stdStartArgs (phNames tpl) t0, ({} : DtArgs)) := by
    unfold _to_datetime_args
    rw [hstart, hend, standardise_expectedArgs]
    rfl
  have hne : (capturesOf tpl t0 t0).isEmpty = false := by
    rw [hcaps]
    cases hn2 : phNames tpl with
    | nil => rw [hn2] at hy; exact absurd hy (List.not_mem_nil _)
    | cons a l => rfl
  have hsaE : (stdStartArgs (phNames tpl) t0).isEmpty = false := by
    simp [stdStartArgs, DtArgs.isEmpty, hy]
  unfold _retrieve_time_coverage
  rw [hne]
  simp only [Bool.false_eq_true, if_false]
  rw [h2da]
  have hbind : ∀ {β : Type} (x : DtArgs × DtArgs)
      (f : DtArgs × DtArgs → Except PyErr β), (Except.ok x >>= f) = f x :=
    fun x f => rfl
  rw [hbind]
  simp only []
  rw [hsaE]
  simp only [Bool.false_eq_true, if_false]
  rw [mkDatetime_masked (phNames tpl) t0 hvalid hy hm hd]
  rfl

/-- **C1, amended.** For every template whose placeholders are distinct
non-`end_` temporal fields among `year`, `month`, `day`, `hour`,
`minute`, `second`, `millisecond`, including a complete date, whose
literal runs contain no regex-active character (`litRegexSafe`: the
compilation escapes only `.`, so a literal `+`, `^` or `$` would survive
rendering as live regex syntax and make the program's parse fail), and
every valid start time with a four-digit year for which
`generate_filename` succeeds: `parse_filename` on the rendered name
recovers exactly the rendered placeholder values, and
`_retrieve_time_coverage` on those captures returns the start time
truncated to the finest placeholder present (the end is `None` and is
completed to the start by `get_info`, matching `t1 = t0` of discrete
files). -/
theorem c1_render_parse_roundtrip (tpl : List Token) (t0 : Datetime)
    (s : List Char)
    (hvalid : t0.valid = true) (hyear : 1000 ≤ t0.year)
    (hall : ∀ nm ∈ phNames tpl, nm ∈ allowedStartNames)
    (hnd : (phNames tpl).Nodup)
    (hy : "year" ∈ phNames tpl) (hm : "month" ∈ phNames tpl)
    (hd : "day" ∈ phNames tpl)
    (hlit : litRegexSafe tpl = true)
    (hrender : generate_filename tpl t0 t0 [] = .ok s) :
    parse_filename tpl s = .ok (capturesOf tpl t0 t0)
    ∧ _retrieve_time_coverage (endTimeSuperior tpl) (capturesOf tpl t0 t0) =
        .ok (some (some (maskStart (phNames tpl) t0), none)) := by
  constructor
  · have hs := generate_eq_renderRaw tpl t0 s hvalid hyear hall hrender
    subst hs
    unfold parse_filename
    have hp := parseCore_renderRaw t0 hvalid hyear tpl hall []
    rw [List.append_nil] at hp
    rw [hp]
  · exact retrieveTimeCoverage_caps tpl t0 hvalid hyear hall hnd hy hm hd

/-- **C1, counterexample.** With a `year2` placeholder the claim fails:
template `"{year2}{month}{day}.bin"` at `t0 = t1 =` 2070-01-01 renders
without error to `"700101.bin"`, parsing recovers the captures, but the
reconstructed start time is 1970-01-01 — its year differs from `t0`'s,
so the coverage is not `(t0, t1)` even at the coarsest (year)
resolution. -/
theorem c1_counterexample :
    generate_filename tplYear2 dt2070 dt2070 [] = .ok ("700101.bin".toList)
    ∧ parse_filename tplYear2 ("700101.bin".toList) =
        .ok [("year2", "70".toList), ("month", "01".toList),
             ("day", "01".toList)]
    ∧ _retrieve_time_coverage (endTimeSuperior tplYear2)
        [("year2", "70".toList), ("month", "01".toList), ("day", "01".toList)]
      = .ok (some (some ⟨1970, 1, 1, 0, 0, 0, 0⟩, none))
    ∧ (1970 : Nat) ≠ dt2070.year := by decide

/-- Witness for C1 at scenario S1: template
`"{year}/{month}/{day}/{hour}{minute}{second}.nc"` with
`t0 = t1 =` 2017-01-01T00:00:00 renders to `"2017/01/01/000000.nc"`,
whose parse recovers all six fields and whose reconstructed start is
`t0` itself. -/
theorem c1_render_parse_roundtrip_witness :
    (dt2017.valid = true) ∧ (1000 ≤ dt2017.year) ∧
    (∀ nm ∈ phNames tplS1, nm ∈ allowedStartNames) ∧
    (phNames tplS1).Nodup ∧
    ("year" ∈ phNames tplS1) ∧ ("month" ∈ phNames tplS1) ∧
    ("day" ∈ phNames tplS1) ∧ (litRegexSafe tplS1 = true) ∧
    (generate_filename tplS1 dt2017 dt2017 [] =
      .ok ("2017/01/01/000000.nc".toList)) ∧
    (parse_filename tplS1 ("2017/01/01/000000.nc".toList) =
        .ok (capturesOf tplS1 dt2017 dt2017)
      ∧ _retrieve_time_coverage (endTimeSuperior tplS1)
          (capturesOf tplS1 dt2017 dt2017) =
        .ok (some (some (maskStart (phNames tplS1) dt2017), none))) :=
  ⟨by decide, by decide, by decide, by decide, by decide, by decide, by decide,
   by decide, by decide,
   c1_render_parse_roundtrip tplS1 dt2017 ("2017/01/01/000000.nc".toList)
     (by decide) (by decide) (by decide) (by decide) (by decide) (by decide)
     (by decide) (by decide) (by decide)⟩

/-- Witness for C6: three files, bundle size 2. -/
theorem c6_integer_bundling_witness :
    0 < 2 ∧ c6Files ≠ [] ∧
    (_prepare_find_files_return c6Files true (.int 2) =
        .ok (.bundles (chunkList 2 (sortByStart c6Files)))
      ∧ (chunkList 2 (sortByStart c6Files)).flatten = sortByStart c6Files
      ∧ (chunkList 2 (sortByStart c6Files)).flatten.Perm c6Files
      ∧ (∀ b ∈ chunkList 2 (sortByStart c6Files),
          1 ≤ b.length ∧ b.length ≤ 2)
      ∧ (∀ b ∈ (chunkList 2 (sortByStart c6Files)).dropLast, b.length = 2)) :=
  ⟨by decide, by decide,
   c6_integer_bundling c6Files 2 true (by decide) (by decide)⟩

end Typhon
